import Mathlib

/-!
# Verification of the struct-tag marshaling helpers

A shallow embedding of the reflective struct-tag-driven marshal/unmarshal
engine (query-params, JSON and CSV encodings), together with the structural
mutators (clear fields, apply defaults, any-field-set).  Records are modelled
as lists of fields; each field carries the struct-tag values the engine reads
and a typed value.  Reflection-driven method dispatch (getter/setter tags and
the `:=` predicate validator) is external dynamic dispatch and is outside this
model; all theorems below concern records that do not use method indirection.
-/

namespace AldeloCommon

/- ## Character and string primitives

The low-level string utilities (trim, case conversion, left/right slicing,
parsing) live outside the marshaling source file; they are modelled from the
spec, which declares them pre-existing library services. -/

def bslash : Char := Char.ofNat 92

def squote : Char := Char.ofNat 39

def dquote : Char := Char.ofNat 34

def lbrace : Char := Char.ofNat 123

def rbrace : Char := Char.ofNat 125

def isWhiteCh (c : Char) : Bool :=
  c = ' ' || c = '\t' || c = '\n' || c = '\r'

def trimChars (cs : List Char) : List Char :=
  ((cs.dropWhile isWhiteCh).reverse.dropWhile isWhiteCh).reverse

/-- Modelled from the spec: `Trim` trims surrounding whitespace. -/
def Trim (s : String) : String := ⟨trimChars s.data⟩

/-- Modelled from the spec: `LenTrim` is the length of the trimmed string. -/
def LenTrim (s : String) : Nat := (Trim s).length

/-- Modelled from the spec: lower-casing used for case-insensitive compares. -/
def lowerStr (s : String) : String := ⟨s.data.map Char.toLower⟩

/-- Modelled from the spec: `Left` keeps the first `n` characters. -/
def Left (s : String) (n : Nat) : String := ⟨s.data.take n⟩

/-- Modelled from the spec: `Right` keeps the last `n` characters. -/
def Right (s : String) (n : Nat) : String := ⟨s.data.drop (s.data.length - n)⟩

/-- Modelled from the spec: boolean tag parsing (`skipblank:"true"` etc.);
accepts the same truthy literals the CSV engine's own true-list uses. -/
def ParseBool (s : String) : Bool :=
  let l := lowerStr (Trim s)
  l = "true" || l = "yes" || l = "on" || l = "1" || l = "enabled"

/- ## Decimal rendering and parsing

Primitive integer rendering/parsing is an external library service per the
spec; modelled here as canonical base-10 text. -/

def dChar (d : Nat) : Char := Char.ofNat (48 + d)

def isDigitCh (c : Char) : Bool := 48 ≤ c.toNat && c.toNat ≤ 57

def charDigit (c : Char) : Nat := c.toNat - 48

def natToChars (n : Nat) : List Char := ((Nat.digits 10 n).map dChar).reverse

/-- Modelled from the spec: canonical decimal rendering of a natural. -/
def NatToString (n : Nat) : String := ⟨if n = 0 then ['0'] else natToChars n⟩

def parseNatChars (cs : List Char) : Nat :=
  Nat.ofDigits 10 ((cs.map charDigit).reverse)

def parseNatChars? (cs : List Char) : Option Nat :=
  if cs ≠ [] ∧ cs.all isDigitCh then some (parseNatChars cs) else none

/-- Modelled from the spec: decimal rendering of a (signed) integer. -/
def Int64ToString (i : Int) : String :=
  if i < 0 then ⟨'-' :: (NatToString i.natAbs).data⟩ else NatToString i.natAbs

/-- Modelled from the spec: `Itoa` renders an int in decimal. -/
def Itoa (i : Int) : String := Int64ToString i

def parseIntChars (cs : List Char) : Option Int :=
  match cs with
  | [] => none
  | c :: rest =>
    if c = '-' then (parseNatChars? rest).map (fun n => -(n : Int))
    else (parseNatChars? (c :: rest)).map (fun n => (n : Int))

/-- Modelled from the spec: parse signed decimal text; `none` when the text is
not a decimal integer (the Go helper reports ok=false). -/
def ParseInt64 (s : String) : Option Int := parseIntChars s.data

/-- Modelled from the spec: 32-bit parse; width is abstracted away. -/
def ParseInt32 (s : String) : Option Int := ParseInt64 s

/- ## Float text

Floating-point rendering/parsing is an external primitive per the spec; a
float field's value is modelled by its canonical decimal text (optional minus,
integer part without leading zeros, optional fraction without trailing zeros),
so rendering is the identity and zero is exactly the text "0". -/

def validFracChars (cs : List Char) : Bool :=
  !cs.isEmpty && cs.all isDigitCh && !(cs.getLast? == some '0')

def validIntPartChars : List Char → Bool
  | [] => false
  | [c] => isDigitCh c
  | c :: rest => isDigitCh c && decide (c ≠ '0') && rest.all isDigitCh

def validFloatBody (cs : List Char) : Bool :=
  match cs.dropWhile (fun c => decide (c ≠ '.')) with
  | [] => validIntPartChars cs
  | _ :: frac => validIntPartChars (cs.takeWhile (fun c => decide (c ≠ '.'))) && validFracChars frac

def validFloatChars (cs : List Char) : Bool :=
  match cs with
  | [] => false
  | c :: rest => if c = '-' then validFloatBody rest && !(rest == ['0']) else validFloatBody cs

/-- Modelled from the spec: decimal float text recognizer (`ParseFloat64` ok). -/
def ValidFloatText (s : String) : Bool := validFloatChars s.data

def floatIsZero (s : String) : Bool := s == "0"

/- ## Escaping

The JSON marshaler backslash-escapes quotes and apostrophes (two sequential
replaces in the source, equivalent to this single character walk since the
first introduces no apostrophes and the second no quotes); `JsonFromEscaped`
is modelled from the spec as the inverse walk dropping a backslash that
precedes a quote or apostrophe. -/

def escQuotes : List Char → List Char
  | [] => []
  | c :: rest =>
    if c = dquote ∨ c = squote then bslash :: c :: escQuotes rest else c :: escQuotes rest

def unescChars : List Char → List Char
  | [] => []
  | [c] => [c]
  | c :: d :: rest =>
    if c = bslash ∧ (d = dquote ∨ d = squote) then d :: unescChars rest
    else c :: unescChars (d :: rest)

/-- Modelled from the spec: `JsonFromEscaped` undoes the quote/apostrophe
escaping (the surrounding JSON quotes are already stripped by the decoder
model below). -/
def JsonFromEscaped (s : String) : String := ⟨unescChars s.data⟩

/-- Modelled from the spec: `JsonToEscaped` handles residual JSON escaping;
quotes and apostrophes are already escaped by the marshaler itself, so this
is the identity in the model. -/
def JsonToEscaped (s : String) : String := s

/- ## Splitting -/

/-- Modelled from the spec: split on a single delimiter character (the CSV
delimiter is modelled as one character; `strings.Split` semantics). -/
def splitChar (d : Char) : List Char → List (List Char)
  | [] => [[]]
  | c :: cs =>
    match splitChar d cs with
    | [] => [[]]
    | t :: ts => if c = d then [] :: t :: ts else (c :: t) :: ts

def SplitString (s : String) (d : Char) : List String :=
  (splitChar d s.data).map (fun l => ⟨l⟩)

def splitOnSubGo (sep : List Char) : Nat → List Char → List (List Char)
  | _, [] => [[]]
  | 0, cs => [cs]
  | fuel + 1, c :: cs =>
    if sep.isPrefixOf (c :: cs) then
      [] :: splitOnSubGo sep fuel ((c :: cs).drop sep.length)
    else
      match splitOnSubGo sep fuel cs with
      | [] => [[c]]
      | t :: ts => (c :: t) :: ts

/-- Modelled from the spec: `strings.Split` on a multi-character separator,
used for the `+%` modulo marker and the `..` size/range marker. -/
def SplitSub (s sep : String) : List String :=
  (splitOnSubGo sep.data s.data.length s.data).map (fun l => ⟨l⟩)

/- ## Values

Field values cover the primitive kinds the claims concern: strings, bools,
ints, floats (canonical text), date/times (text in the field's time format;
time formatting itself is an external primitive), and the nullable wrappers
`sql.NullString` / `sql.NullInt64`.  Unsigned, pointer, slice and interface
kinds are outside the model. -/

inductive Value where
  | vStr (s : String)
  | vBool (b : Bool)
  | vInt (n : Int)
  | vFloat (txt : String)
  | vTime (txt : String)
  | vNullStr (v : Option String)
  | vNullInt (v : Option Int)
deriving Repr, DecidableEq, Inhabited

def Value.isIntKind : Value → Bool
  | vInt _ => true
  | _ => false

def Value.intVal : Value → Int
  | vInt n => n
  | _ => 0

/-- `time.Time` and the `sql.Null*` wrappers have `reflect.Struct` kind in Go;
the other modelled kinds are primitive. -/
def Value.isGoStructKind : Value → Bool
  | vTime _ => true
  | vNullStr _ => true
  | vNullInt _ => true
  | _ => false

def clearValue : Value → Value
  | Value.vStr _ => Value.vStr ""
  | Value.vBool _ => Value.vBool false
  | Value.vInt _ => Value.vInt 0
  | Value.vFloat _ => Value.vFloat "0"
  | Value.vTime _ => Value.vTime ""
  | Value.vNullStr _ => Value.vNullStr none
  | Value.vNullInt _ => Value.vNullInt none

/- ## Fields and records

One struct field: its name, the tag values the engine reads (the primary
namespace's value and the exclusion namespace's value are stored resolved,
since the engine only ever reads those two lookups), and its typed value.
Getter/setter method tags are reflective dispatch and are not modelled. -/

structure StructField where
  name : String
  tagVal : String := ""
  exTag : String := ""
  uniqueId : String := ""
  boolTrue : String := ""
  boolFalse : String := ""
  skipBlank : String := ""
  skipZero : String := ""
  zeroBlank : String := ""
  timeFormat : String := ""
  outPfx : String := ""
  defVal : String := ""
  pos : String := ""
  typ : String := ""
  regex : String := ""
  size : String := ""
  rng : String := ""
  req : String := ""
  validate : String := ""
  value : Value := Value.vStr ""
deriving Repr, DecidableEq, Inhabited

abbrev Record := List StructField

/- ## Structural mutators -/

/-- `StructClearFields` sets every settable field to its zero value. -/
def StructClearFields (r : Record) : Record :=
  r.map (fun f => { f with value := clearValue f.value })

/-- One field of `SetStructFieldDefaultValues`: a field with a non-empty
`def` tag and a currently-zero/invalid value receives the default.  The
source has no `reflect.Bool` case, so bool fields never receive defaults;
numeric defaults apply only when they parse to a non-zero number.  (The
setter indirection for int defaults is reflective dispatch, not modelled.) -/
def applyFieldDefault (f : StructField) : StructField :=
  if f.defVal.length = 0 then f
  else
    match f.value with
    | Value.vStr s => if LenTrim s = 0 then { f with value := Value.vStr f.defVal } else f
    | Value.vBool _ => f
    | Value.vInt n =>
      if n = 0 then
        match ParseInt64 f.defVal with
        | some k => if k ≠ 0 then { f with value := Value.vInt k } else f
        | none => f
      else f
    | Value.vFloat t =>
      if floatIsZero t then
        if ValidFloatText f.defVal && !floatIsZero f.defVal then
          { f with value := Value.vFloat f.defVal }
        else f
      else f
    | Value.vTime t =>
      if t = "" then
        if f.defVal ≠ "" then { f with value := Value.vTime f.defVal } else f
      else f
    | Value.vNullStr v =>
      match v with
      | none => { f with value := Value.vNullStr (some f.defVal) }
      | some _ => f
    | Value.vNullInt v =>
      match v with
      | none =>
        match ParseInt32 f.defVal with
        | some k => if k ≠ 0 then { f with value := Value.vNullInt (some k) } else f
        | none => f
      | some _ => f

def applyDefaults (r : Record) : Record := r.map applyFieldDefault

/-- `SetStructFieldDefaultValues`: `none` models a nil/non-pointer/non-struct
input (the source's early `return false` paths); a valid record has defaults
applied and the call returns `true`. -/
def SetStructFieldDefaultValues : Option Record → Option Record × Bool
  | none => (none, false)
  | some r => (some (applyDefaults r), true)

/-- `StructNonDefaultRequiredFieldsCount`: fields tagged required without a
declared default. -/
def StructNonDefaultRequiredFieldsCount (r : Record) : Nat :=
  (r.filter (fun f => f.defVal.length = 0 && lowerStr f.req == "true")).length

/-- The per-field check of `IsStructFieldSet`, mirroring the source's switch:
bool fields are checked only against zero (no default comparison); string,
int, float and nullable-wrapper fields compare against both zero and the
declared default. -/
def fieldIsSetCheck (f : StructField) : Bool :=
  match f.value with
  | Value.vStr s => if 0 < LenTrim s then decide (s ≠ f.defVal) else false
  | Value.vBool b => b
  | Value.vInt n => if n ≠ 0 then decide (Int64ToString n ≠ f.defVal) else false
  | Value.vFloat t => if ¬floatIsZero t then decide (t ≠ f.defVal) else false
  | Value.vTime t =>
    if t ≠ "" then
      if f.defVal.length = 0 then true else decide (t ≠ f.defVal)
    else false
  | Value.vNullStr v =>
    match v with
    | none => false
    | some s => if f.defVal.length = 0 then true else decide (s ≠ f.defVal)
  | Value.vNullInt v =>
    match v with
    | none => false
    | some n => if f.defVal.length = 0 then true else decide (Itoa n ≠ f.defVal)

/-- `IsStructFieldSet`: the source walks the fields and returns early on the
first set field, i.e. an any-fold of the per-field check; `none` models a
nil/non-pointer/non-struct input. -/
def IsStructFieldSet : Option Record → Bool
  | none => false
  | some r => r.any fieldIsSetCheck

/- ## Value transform pipeline

`ReflectValueToString` / `ReflectStringToField` live outside the marshaling
source file; both are modelled from the spec (§4.2): canonical text rendering
with bool-literal overrides, skip flags for blank/zero values, nullable
wrappers skipped when invalid; parsing errors on malformed bool/int/float
text.  Time rendering/parsing is an external primitive: a time value is its
already-formatted text, so format application is the identity. -/

def ReflectValueToString (v : Value) (boolTrue boolFalse : String)
    (skipBlank skipZero : Bool) (timeFormat : String) (zeroBlank : Bool) :
    String × Bool × Option String :=
  match v with
  | Value.vStr s =>
    if skipBlank ∧ LenTrim s = 0 then ("", true, none) else (s, false, none)
  | Value.vBool b =>
    if skipZero ∧ b = false then ("", true, none)
    else if b then
      if 0 < LenTrim boolTrue then (boolTrue, false, none) else ("true", false, none)
    else
      if 0 < LenTrim boolFalse then (boolFalse, false, none) else ("false", false, none)
  | Value.vInt n =>
    if skipZero ∧ n = 0 then ("", true, none)
    else if zeroBlank ∧ n = 0 then ("", false, none)
    else (Int64ToString n, false, none)
  | Value.vFloat t =>
    if skipZero ∧ floatIsZero t then ("", true, none)
    else if zeroBlank ∧ floatIsZero t then ("", false, none)
    else (t, false, none)
  | Value.vTime t =>
    if skipZero ∧ t = "" then ("", true, none)
    else (t, false, none)
  | Value.vNullStr w =>
    match w with
    | none => ("", true, none)
    | some s => (s, false, none)
  | Value.vNullInt w =>
    match w with
    | none => ("", true, none)
    | some n => (Int64ToString n, false, none)

def ReflectStringToField (cur : Value) (text timeFormat : String) : Except String Value :=
  match cur with
  | Value.vStr _ => Except.ok (Value.vStr text)
  | Value.vBool _ =>
    if lowerStr text = "true" then Except.ok (Value.vBool true)
    else if lowerStr text = "false" then Except.ok (Value.vBool false)
    else Except.error "ReflectStringToField Bool Parse Failed"
  | Value.vInt _ =>
    match ParseInt64 text with
    | some n => Except.ok (Value.vInt n)
    | none => Except.error "ReflectStringToField Int Parse Failed"
  | Value.vFloat _ =>
    if ValidFloatText text then Except.ok (Value.vFloat text)
    else Except.error "ReflectStringToField Float Parse Failed"
  | Value.vTime _ => Except.ok (Value.vTime text)
  | Value.vNullStr _ => Except.ok (Value.vNullStr (some text))
  | Value.vNullInt _ =>
    match ParseInt64 text with
    | some n => Except.ok (Value.vNullInt (some n))
    | none => Except.error "ReflectStringToField NullInt Parse Failed"

/- ## Kind-based character extraction

Alpha/numeric/hex extraction are external string utilities per the spec,
modelled as character filters; regex extraction is an external regex engine,
modelled as the identity (no claim depends on the extracted content). -/

def isAlphaCh (c : Char) : Bool :=
  (65 ≤ c.toNat && c.toNat ≤ 90) || (97 ≤ c.toNat && c.toNat ≤ 122)

def ExtractAlpha (s : String) : String := ⟨s.data.filter isAlphaCh⟩

def ExtractNumeric (s : String) : String := ⟨s.data.filter isDigitCh⟩

def ExtractAlphaNumeric (s : String) : String :=
  ⟨s.data.filter (fun c => isAlphaCh c || isDigitCh c)⟩

def ExtractAlphaNumericPrintableSymbols (s : String) : String :=
  ⟨s.data.filter (fun c => 32 ≤ c.toNat && c.toNat ≤ 126)⟩

def isHexCh (c : Char) : Bool :=
  isDigitCh c || (65 ≤ c.toNat && c.toNat ≤ 70) || (97 ≤ c.toNat && c.toNat ≤ 102)

def ExtractHex (s : String) : String := ⟨s.data.filter isHexCh⟩

def ExtractByRegex (s pattern : String) : String := s

/-- Modelled from the spec: `url.PathEscape` is Go standard library; its
escaping is injective and content-preserving, and no claim depends on the
escaped spelling, so it is the identity here. -/
def UrlPathEscape (s : String) : String := s

/- ## Marshal to query parameters -/

/-- The effective output key: the primary tag value, falling back to the
field's name when the tag is blank. -/
def effTag (f : StructField) : String :=
  if LenTrim f.tagVal = 0 then f.name else f.tagVal

/-- The unique-group key of a field: its trimmed, lower-cased `uniqueid`
tag, when non-empty. -/
def groupKey (f : StructField) : Option String :=
  let u := Trim f.uniqueId
  if u.length = 0 then none else some (lowerStr u)

/-- A field participates in the walk when its key is not `"-"` and the
exclusion namespace (when given) does not carry `"-"`. -/
def eligible (exGiven : Bool) (f : StructField) : Bool :=
  !(effTag f == "-") && !(exGiven && Trim f.exTag == "-")

def qpRender (f : StructField) : String × Bool × Option String :=
  ReflectValueToString f.value f.boolTrue f.boolFalse
    (ParseBool f.skipBlank) (ParseBool f.skipZero) f.timeFormat (ParseBool f.zeroBlank)

/-- The encoded buffer a field contributes to the query-params output, or
`none` when the field is skipped after rendering: render error/skip, or the
zero-int "unknown" enum sentinel with no default on a unique-group field.
(In the source the unique-group claim is taken before rendering and deleted
again on these paths; nothing reads the map in between, so claim-then-release
is a no-op on the walk state and the skip decision is per-field.) -/
def qpProduceBuf (f : StructField) : Option String :=
  let r := qpRender f
  if r.2.2.isSome ∨ r.2.1 then none
  else
    let unknown := f.value.isIntKind ∧ f.value.intVal = 0 ∧ lowerStr r.1 = "unknown"
    let b1? : Option String :=
      if unknown then
        if 0 < f.defVal.length then some f.defVal
        else
          match groupKey f with
          | some _ => none
          | none => some ""
      else some r.1
    match b1? with
    | none => none
    | some b1 =>
      if f.boolFalse = " " ∧ 0 < f.outPfx.length ∧ b1 = "false" then some ""
      else
        let b := if b1.length = 0 ∧ 0 < f.defVal.length then f.defVal else b1
        if ParseBool f.skipBlank ∧ LenTrim b = 0 then some ""
        else if ParseBool f.skipZero ∧ b = "0" then some ""
        else some (f.outPfx ++ b)

def qpAppendPair (out tag b : String) : String :=
  (if 0 < LenTrim out then out ++ "&" else out) ++ tag ++ "=" ++ UrlPathEscape b

/-- The query-params record walk: fields in declaration order, a call-scoped
claimed-group list, the output accumulator and the list of fields that
actually contributed output. -/
def qpWalk (exGiven : Bool) :
    List StructField → List String → String → List StructField →
    String × List String × List StructField
  | [], claimed, out, emitted => (out, claimed, emitted)
  | f :: rest, claimed, out, emitted =>
    if eligible exGiven f then
      match groupKey f with
      | some g =>
        if g ∈ claimed then qpWalk exGiven rest claimed out emitted
        else
          match qpProduceBuf f with
          | none => qpWalk exGiven rest claimed out emitted
          | some b =>
            qpWalk exGiven rest (g :: claimed) (qpAppendPair out (effTag f) b) (emitted ++ [f])
      | none =>
        match qpProduceBuf f with
        | none => qpWalk exGiven rest claimed out emitted
        | some b => qpWalk exGiven rest claimed (qpAppendPair out (effTag f) b) (emitted ++ [f])
    else qpWalk exGiven rest claimed out emitted

/-- `MarshalStructToQueryParams`; `none` models a nil input pointer (the
non-pointer / non-struct preconditions behave identically). -/
def MarshalStructToQueryParams (r : Option Record) (tagNameGiven exGiven : Bool) :
    String × Option String :=
  match r with
  | none => ("", some "MarshalStructToQueryParams Requires Input Struct Variable Pointer")
  | some rcd =>
    if tagNameGiven = false then
      ("", some "MarshalStructToQueryParams Requires TagName")
    else
      let w := qpWalk exGiven rcd [] "" []
      if LenTrim w.1 = 0 then ("", some "MarshalStructToQueryParams Yielded Blank Output")
      else (w.1, none)

/-- The fields a query-params marshal call emits into its output. -/
def qpEmitted (rcd : Record) (exGiven : Bool) : List StructField :=
  (qpWalk exGiven rcd [] "" []).2.2

/- ## Marshal to JSON -/

def jsonRender (f : StructField) : String × Bool × Option String :=
  ReflectValueToString f.value f.boolTrue f.boolFalse
    (ParseBool f.skipBlank) (ParseBool f.skipZero) f.timeFormat (ParseBool f.zeroBlank)

/-- The escaped JSON value a field contributes, or `none` when the field is
skipped after rendering (render error/skip, or the zero-int "unknown" enum
sentinel with no default on a unique-group field); mirrors the source's
per-field body, with the same claim-then-release collapsing as
`qpProduceBuf`. -/
def jsonProduceBuf (f : StructField) : Option String :=
  let r := jsonRender f
  if r.2.2.isSome ∨ r.2.1 then none
  else
    let unknown := f.value.isIntKind ∧ f.value.intVal = 0 ∧ lowerStr r.1 = "unknown"
    let b1? : Option String :=
      if unknown then
        if 0 < f.defVal.length then some f.defVal
        else
          match groupKey f with
          | some _ => none
          | none => some ""
      else some r.1
    match b1? with
    | none => none
    | some b1 =>
      let b2 :=
        if f.boolTrue = " " ∧ b1.length = 0 ∧ 0 < f.outPfx.length then f.outPfx ++ f.defVal
        else if f.boolFalse = " " ∧ b1 = "false" ∧ 0 < f.outPfx.length then ""
        else if 0 < f.defVal.length ∧ b1.length = 0 then f.outPfx ++ f.defVal
        else b1
      some (JsonToEscaped ⟨escQuotes b2.data⟩)

/-- The JSON record walk: accumulates the key/value pairs in field order with
the call-scoped claimed-group list. -/
def jsonWalk (exGiven : Bool) :
    List StructField → List String → List (String × String) →
    List (String × String) × List String
  | [], claimed, pairs => (pairs, claimed)
  | f :: rest, claimed, pairs =>
    if eligible exGiven f then
      match groupKey f with
      | some g =>
        if g ∈ claimed then jsonWalk exGiven rest claimed pairs
        else
          match jsonProduceBuf f with
          | none => jsonWalk exGiven rest claimed pairs
          | some b => jsonWalk exGiven rest (g :: claimed) (pairs ++ [(effTag f, b)])
      | none =>
        match jsonProduceBuf f with
        | none => jsonWalk exGiven rest claimed pairs
        | some b => jsonWalk exGiven rest claimed (pairs ++ [(effTag f, b)])
    else jsonWalk exGiven rest claimed pairs

def jsonPairs (rcd : Record) (exGiven : Bool) : List (String × String) :=
  (jsonWalk exGiven rcd [] []).1

def pairChunk (p : String × String) : List Char :=
  dquote :: p.1.data ++ dquote :: ':' :: dquote :: p.2.data ++ [dquote]

def printPairsSep : List (String × String) → List Char
  | [] => []
  | [p] => pairChunk p
  | p :: q :: rest => pairChunk p ++ ',' :: ' ' :: printPairsSep (q :: rest)

/-- `MarshalStructToJson`: quoted `"key":"value"` chunks joined by `", "` and
wrapped in braces.  Every emitted pair contributes a quoted chunk, so the
source's blank test `LenTrim(output) == 0` holds exactly when no pair was
emitted. -/
def MarshalStructToJson (r : Option Record) (tagNameGiven exGiven : Bool) :
    String × Option String :=
  match r with
  | none => ("", some "MarshalStructToJson Requires Input Struct Variable Pointer")
  | some rcd =>
    if tagNameGiven = false then ("", some "MarshalStructToJson Requires TagName")
    else
      let ps := jsonPairs rcd exGiven
      if ps.isEmpty then ("", some "MarshalStructToJson Yielded Blank Output")
      else (⟨lbrace :: (printPairsSep ps ++ [rbrace])⟩, none)

/- ## JSON object decoding

`encoding/json.Unmarshal` into a `map[string]json.RawMessage` is Go standard
library; modelled from the spec as a decoder that accepts exactly the flat
object layout the marshaler emits (plus the empty object), rejecting
everything else as a decode error.  Pair values come back with the JSON
quotes stripped but escapes intact, matching the raw-message content the
source hands to `JsonFromEscaped`. -/

def scanStr : List Char → Option (List Char × List Char)
  | [] => none
  | [c] => if c = dquote then some ([], []) else none
  | c :: d :: rest =>
    if c = dquote then some ([], d :: rest)
    else if c = bslash then (scanStr rest).map (fun pr => (c :: d :: pr.1, pr.2))
    else (scanStr (d :: rest)).map (fun pr => (c :: pr.1, pr.2))

def parsePairsLoop : Nat → List Char → Option (List (String × String))
  | 0, _ => none
  | fuel + 1, cs =>
    match cs with
    | [] => none
    | c :: cs1 =>
      if c = dquote then
        match scanStr cs1 with
        | none => none
        | some (key, cs2) =>
          match cs2 with
          | ':' :: c2 :: cs3 =>
            if c2 = dquote then
              match scanStr cs3 with
              | none => none
              | some (val, cs4) =>
                match cs4 with
                | [c3] => if c3 = rbrace then some [(⟨key⟩, ⟨val⟩)] else none
                | c3 :: c4 :: cs5 =>
                  if c3 = ',' ∧ c4 = ' ' then
                    (parsePairsLoop fuel cs5).map (fun ps => (⟨key⟩, ⟨val⟩) :: ps)
                  else none
                | [] => none
            else none
          | _ => none
      else none

def jsonDecodeObject (s : String) : Option (List (String × String)) :=
  match s.data with
  | [] => none
  | c :: rest =>
    if c = lbrace then
      if rest = [rbrace] then some []
      else parsePairsLoop rest.length rest
    else none

/- ## Unmarshal from JSON -/

/-- The bool-literal normalization before generic parsing (source lines
666-684): text equal to the declared true/false literal becomes canonical
`"true"`/`"false"`; the single-space `booltrue` sentinel with an out-prefix
matches the bare prefix as true. -/
def jsonNormalizeBool (f : StructField) (jValue : String) : String :=
  if f.boolTrue = " " ∧ 0 < f.outPfx.length ∧ jValue = f.outPfx then "true"
  else if 0 < LenTrim f.boolTrue ∧ 0 < jValue.length ∧ f.boolTrue = jValue then "true"
  else if 0 < LenTrim f.boolFalse ∧ 0 < jValue.length ∧ f.boolFalse = jValue then "false"
  else jValue

/-- One field of the JSON unmarshal walk: key resolution, exclusion, map
lookup (missing keys leave the field at its post-default value), unescaping,
bool-literal normalization and the parse into the field. -/
def jsonFieldApply (exGiven : Bool) (m : List (String × String)) (f : StructField) :
    Except String StructField :=
  let jName0 := Trim f.tagVal
  if jName0 = "-" then Except.ok f
  else if exGiven ∧ Trim f.exTag = "-" then Except.ok f
  else
    let jName := if LenTrim jName0 = 0 then f.name else jName0
    match m.lookup jName with
    | none => Except.ok f
    | some raw =>
      let jValue := jsonNormalizeBool f (JsonFromEscaped raw)
      match ReflectStringToField f.value jValue (Trim f.timeFormat) with
      | Except.error e => Except.error e
      | Except.ok v => Except.ok { f with value := v }

/-- The JSON unmarshal walk: a field-conversion error aborts immediately,
returning the record in its current (possibly incompletely populated)
state. -/
def jsonUnmarshalGo (exGiven : Bool) (m : List (String × String)) :
    List StructField → List StructField → List StructField × Option String
  | acc, [] => (acc.reverse, none)
  | acc, f :: rest =>
    match jsonFieldApply exGiven m f with
    | Except.error e => (acc.reverse ++ f :: rest, some e)
    | Except.ok f2 => jsonUnmarshalGo exGiven m (f2 :: acc) rest

/-- `UnmarshalJsonToStruct`: all precondition and decode errors return before
the record is cleared; only after a non-empty map is decoded is the record
cleared, defaulted and overlaid field by field. -/
def UnmarshalJsonToStruct (r : Option Record) (jsonPayload : String)
    (tagNameGiven exGiven : Bool) : Option Record × Option String :=
  match r with
  | none => (none, some "InputStructPtr is Required")
  | some rcd =>
    if LenTrim jsonPayload = 0 then (some rcd, some "JsonPayload is Required")
    else if tagNameGiven = false then (some rcd, some "TagName is Required")
    else
      match jsonDecodeObject jsonPayload with
      | none => (some rcd, some "Unmarshal Json Failed")
      | some m =>
        if m.isEmpty then (some rcd, some "Unmarshaled Json Map Has No Elements")
        else
          let r1 := applyDefaults (StructClearFields rcd)
          let res := jsonUnmarshalGo exGiven m [] r1
          (some res.1, res.2)

/- ## CSV tag parsing helpers -/

/-- Go's `x, _ = ParseInt32(...)`: zero on parse failure. -/
def ParseInt32D (s : String) : Int := (ParseInt32 s).getD 0

/-- The `+%z` modulo marker of the `size` tag: returns the remaining size
text and the modulo (clamped to zero when negative or absent). -/
def sizeParts (f : StructField) : String × Int :=
  let tagSize := Trim (lowerStr f.size)
  match SplitSub tagSize "+%" with
  | [a, b] =>
    let m := ParseInt32D b
    (a, if m < 0 then 0 else m)
  | _ => (tagSize, 0)

/-- The `x..y` size/range rule: `x` alone means exact (min = max). -/
def sizeMinMax (tagSize : String) : Int × Int :=
  match SplitSub tagSize ".." with
  | [a, b] => (ParseInt32D a, ParseInt32D b)
  | _ => (ParseInt32D tagSize, ParseInt32D tagSize)

/-- The validated `type` tag (lower-cased, trimmed); `regex` without a
pattern degrades to no type, anything unrecognized degrades to no type. -/
def csvTagType (f : StructField) : String :=
  let t := Trim (lowerStr f.typ)
  if t = "a" ∨ t = "n" ∨ t = "an" ∨ t = "ans" ∨ t = "b" ∨ t = "b64" ∨ t = "regex" ∨ t = "h" then
    if t = "regex" ∧ LenTrim f.regex = 0 then "" else t
  else ""

def csvTagReq (f : StructField) : String :=
  let t := Trim (lowerStr f.req)
  if t = "true" ∨ t = "false" then t else ""

/-- The CSV engine's true-literal list for `type:"b"` fields. -/
def inTrueList (s : String) : Bool :=
  let l := lowerStr s
  l = "true" || l = "yes" || l = "on" || l = "1" || l = "enabled"

/-- CSV bool-literal normalization (trimmed literals, source lines
1380-1395). -/
def csvNormalizeBool (f : StructField) (v : String) : String :=
  let bt := Trim f.boolTrue
  if 0 < bt.length ∧ bt = v then "true"
  else
    let bf := Trim f.boolFalse
    if 0 < bf.length ∧ bf = v then "false" else v

/-- Kind-based extraction on unmarshal (the `ans` setter interaction does not
arise: setters are not modelled). -/
def csvExtract (tagType tagRegEx : String) (v : String) : String :=
  if tagType = "a" then ExtractAlpha v
  else if tagType = "n" then ExtractNumeric v
  else if tagType = "an" then ExtractAlphaNumeric v
  else if tagType = "ans" then ExtractAlphaNumericPrintableSymbols v
  else if tagType = "b" then (if inTrueList v then "true" else "false")
  else if tagType = "regex" then ExtractByRegex v tagRegEx
  else if tagType = "h" then ExtractHex v
  else if tagType = "b64" then ExtractAlphaNumericPrintableSymbols v
  else v

def isFilterType (tagType : String) : Bool :=
  tagType = "a" || tagType = "an" || tagType = "ans" || tagType = "n" ||
    tagType = "regex" || tagType = "h" || tagType = "b64"

/-- Modelled from the spec: decimal-text reading of `ParseFloat64`, used by
the numeric validation comparisons. -/
def parseDecRat? (s : String) : Option Rat :=
  match s.data with
  | [] => none
  | c :: rest =>
    let body := if c = '-' then rest else c :: rest
    let neg := c = '-'
    match body.dropWhile (fun ch => decide (ch ≠ '.')) with
    | [] => (parseNatChars? body).map (fun n => if neg then -(n : Rat) else (n : Rat))
    | _ :: frac =>
      let ip := body.takeWhile (fun ch => decide (ch ≠ '.'))
      match parseNatChars? ip, parseNatChars? frac with
      | some a, some b =>
        let q : Rat := (a : Rat) + (b : Rat) / ((10 : Rat) ^ frac.length)
        some (if neg then -q else q)
      | _, _ => none

/-- Go's `srcNum, _ := ParseFloat64(...)`: zero on failure. -/
def parseDecRatD (s : String) : Rat := (parseDecRat? s).getD 0

/- ## Unmarshal from CSV -/

/-- Validation verdict on unmarshal: the source clears the whole record
before returning an error in the single-value `==`/`!=` branches and the
numeric comparison branches, but returns without clearing in the multi-value
`==`(`||`) and `!=`(`&&`) branches.  The `:=` branch invokes a validator
method reflectively and is not modelled. -/
inductive ValOutcome where
  | pass
  | failClear (msg : String)
  | failKeep (msg : String)
deriving Repr, DecidableEq

def csvUnmarshalValidate (f : StructField) (tagReq csvValue : String) : ValOutcome :=
  let valData0 := Trim f.validate
  if valData0.length < 3 then ValOutcome.pass
  else
    let valComp := Left valData0 2
    let valData := Right valData0 (valData0.length - 2)
    if valComp = "==" then
      let valAr := SplitSub valData "||"
      if valAr.length ≤ 1 then
        if lowerStr csvValue ≠ lowerStr valData ∧ (0 < csvValue.length ∨ tagReq = "true") then
          ValOutcome.failClear (f.name ++ " Validation Failed: Expected To Match")
        else ValOutcome.pass
      else
        if (!valAr.any (fun va => lowerStr csvValue == lowerStr va)) ∧
            (0 < csvValue.length ∨ tagReq = "true") then
          ValOutcome.failKeep (f.name ++ " Validation Failed: Expected To Match One Of")
        else ValOutcome.pass
    else if valComp = "!=" then
      let valAr := SplitSub valData "&&"
      if valAr.length ≤ 1 then
        if lowerStr csvValue = lowerStr valData ∧ (0 < csvValue.length ∨ tagReq = "true") then
          ValOutcome.failClear (f.name ++ " Validation Failed: Expected To Not Match")
        else ValOutcome.pass
      else
        if (valAr.any (fun va => lowerStr csvValue == lowerStr va)) ∧
            (0 < csvValue.length ∨ tagReq = "true") then
          ValOutcome.failKeep (f.name ++ " Validation Failed: Expected To Not Match Any Of")
        else ValOutcome.pass
    else if valComp = "<=" then
      match parseDecRat? valData with
      | some valNum =>
        if parseDecRatD csvValue > valNum ∧ (0 < csvValue.length ∨ tagReq = "true") then
          ValOutcome.failClear (f.name ++ " Validation Failed: Expected To Be Less or Equal")
        else ValOutcome.pass
      | none => ValOutcome.pass
    else if valComp = "<<" then
      match parseDecRat? valData with
      | some valNum =>
        if parseDecRatD csvValue ≥ valNum ∧ (0 < csvValue.length ∨ tagReq = "true") then
          ValOutcome.failClear (f.name ++ " Validation Failed: Expected To Be Less Than")
        else ValOutcome.pass
      | none => ValOutcome.pass
    else if valComp = ">=" then
      match parseDecRat? valData with
      | some valNum =>
        if parseDecRatD csvValue < valNum ∧ (0 < csvValue.length ∨ tagReq = "true") then
          ValOutcome.failClear (f.name ++ " Validation Failed: Expected To Be Greater or Equal")
        else ValOutcome.pass
      | none => ValOutcome.pass
    else if valComp = ">>" then
      match parseDecRat? valData with
      | some valNum =>
        if parseDecRatD csvValue ≤ valNum ∧ (0 < csvValue.length ∨ tagReq = "true") then
          ValOutcome.failClear (f.name ++ " Validation Failed: Expected To Be Greater Than")
        else ValOutcome.pass
      | none => ValOutcome.pass
    else ValOutcome.pass

/-- Prefix-mode token scan: the first token carrying the (case-insensitive)
prefix wins, tracked across the call in the claimed-prefix list; a token of
exactly the prefix yields blank (or `"true"` under the single-space
`booltrue` sentinel), otherwise the remainder after the prefix, bool-literal
normalized. -/
def csvPrefixScan (f : StructField) (elements : List String) (outPfx : String)
    (claimedPfx : List String) : Option (String × List String) :=
  if lowerStr outPfx ∈ claimedPfx then none
  else
    match elements.find? (fun v => lowerStr (Left v outPfx.length) == lowerStr outPfx) with
    | none => none
    | some v =>
      let claimed := lowerStr outPfx :: claimedPfx
      if v.length - outPfx.length = 0 then
        (if f.boolTrue = " " then some ("true", claimed) else some ("", claimed))
      else
        some (csvNormalizeBool f (Right v (v.length - outPfx.length)), claimed)

/-- The CSV unmarshal walk over the cleared-and-defaulted record.
Fields with an unparseable or negative `pos` are skipped (the `pos:"-"` with
setter path is reflective dispatch, not modelled).  In ordinal mode a
position beyond the token count stops the walk silently (`return nil`),
leaving that field and everything after it at post-default values.
Primitive-kind fields run extraction, max-size truncation, the modulo check
and validation; Go-struct-kind fields (time, nullable wrappers) parse
directly.  Errors return the record in its current state except the
clearing validation branches, which return the cleared record. -/
def csvUnmarshalGo (elements : List String) (csvLen : Nat) :
    List String → List StructField → List StructField → List StructField × Option String
  | _, acc, [] => (acc.reverse, none)
  | pmap, acc, f :: rest =>
    match ParseInt32 f.pos with
    | none => csvUnmarshalGo elements csvLen pmap (f :: acc) rest
    | some p =>
      if p < 0 then csvUnmarshalGo elements csvLen pmap (f :: acc) rest
      else
        let tagType := csvTagType f
        let tagRegEx := Trim f.regex
        let sp := sizeParts f
        let mm := sizeMinMax sp.1
        let tagModulo := sp.2
        let tagReq := csvTagReq f
        let outPfx := Trim f.outPfx
        let timeFormat := Trim f.timeFormat
        let continueWith := fun (pmap2 : List String) (csvValue : String) =>
          if f.value.isGoStructKind = false then
            let v1 := csvExtract tagType tagRegEx csvValue
            let v2 :=
              if isFilterType tagType ∧ 0 < mm.2 ∧ (v1.length : Int) > mm.2 then
                Left v1 mm.2.toNat
              else v1
            if isFilterType tagType ∧ 0 < tagModulo ∧ (v2.length : Int) % tagModulo ≠ 0 then
              (acc.reverse ++ f :: rest,
                some ("Struct Field " ++ f.name ++ " Expects Value In Blocks"))
            else
              match csvUnmarshalValidate f tagReq v2 with
              | ValOutcome.failClear msg =>
                (StructClearFields (acc.reverse ++ f :: rest), some msg)
              | ValOutcome.failKeep msg => (acc.reverse ++ f :: rest, some msg)
              | ValOutcome.pass =>
                match ReflectStringToField f.value v2 timeFormat with
                | Except.error e => (acc.reverse ++ f :: rest, some e)
                | Except.ok nv =>
                  csvUnmarshalGo elements csvLen pmap2 ({ f with value := nv } :: acc) rest
          else
            match ReflectStringToField f.value csvValue timeFormat with
            | Except.error e => (acc.reverse ++ f :: rest, some e)
            | Except.ok nv =>
              csvUnmarshalGo elements csvLen pmap2 ({ f with value := nv } :: acc) rest
        if LenTrim outPfx = 0 then
          if p > (csvLen : Int) - 1 then (acc.reverse ++ f :: rest, none)
          else continueWith pmap (csvNormalizeBool f (elements.getD p.toNat ""))
        else
          match csvPrefixScan f elements outPfx pmap with
          | none => csvUnmarshalGo elements csvLen pmap (f :: acc) rest
          | some (v, pmap2) => continueWith pmap2 v

/-- `UnmarshalCSVToStruct`; the delimiter is modelled as a single character
(the custom splitter alternative is a function argument in Go and always
supplied here by the delimiter split). -/
def UnmarshalCSVToStruct (r : Option Record) (csvPayload : String) (csvDelimiter : Char) :
    Option Record × Option String :=
  match r with
  | none => (none, some "InputStructPtr is Required")
  | some rcd =>
    if LenTrim csvPayload = 0 then (some rcd, some "CSV Payload is Required")
    else
      let csvElements := SplitString csvPayload csvDelimiter
      let csvLen := csvElements.length
      if csvLen = 0 then (some rcd, some "CSV Payload Contains Zero Elements")
      else
        let r1 := applyDefaults (StructClearFields rcd)
        let res := csvUnmarshalGo csvElements csvLen [] [] r1
        (some res.1, res.2)

/- ## Marshal to CSV -/

/-- Marshal-direction validation: same comparison grammar as unmarshal, but
every failure aborts the call with an error and no clearing (the marshal
direction never mutates the record); the `:=` branch is reflective dispatch,
not modelled. -/
def csvMarshalValidate (f : StructField) (tagReq fv : String) : Option String :=
  let valData0 := Trim f.validate
  if valData0.length < 3 then none
  else
    let valComp := Left valData0 2
    let valData := Right valData0 (valData0.length - 2)
    if valComp = "==" then
      let valAr := SplitSub valData "||"
      if valAr.length ≤ 1 then
        if lowerStr fv ≠ lowerStr valData ∧ (0 < fv.length ∨ tagReq = "true") then
          some (f.name ++ " Validation Failed: Expected To Match")
        else none
      else
        if (!valAr.any (fun va => lowerStr fv == lowerStr va)) ∧
            (0 < fv.length ∨ tagReq = "true") then
          some (f.name ++ " Validation Failed: Expected To Match One Of")
        else none
    else if valComp = "!=" then
      let valAr := SplitSub valData "&&"
      if valAr.length ≤ 1 then
        if lowerStr fv = lowerStr valData ∧ (0 < fv.length ∨ tagReq = "true") then
          some (f.name ++ " Validation Failed: Expected To Not Match")
        else none
      else
        if (valAr.any (fun va => lowerStr fv == lowerStr va)) ∧
            (0 < fv.length ∨ tagReq = "true") then
          some (f.name ++ " Validation Failed: Expected To Not Match Any Of")
        else none
    else if valComp = "<=" then
      match parseDecRat? valData with
      | some valNum =>
        if parseDecRatD fv > valNum ∧ (0 < fv.length ∨ tagReq = "true") then
          some (f.name ++ " Validation Failed: Expected To Be Less or Equal")
        else none
      | none => none
    else if valComp = "<<" then
      match parseDecRat? valData with
      | some valNum =>
        if parseDecRatD fv ≥ valNum ∧ (0 < fv.length ∨ tagReq = "true") then
          some (f.name ++ " Validation Failed: Expected To Be Less Than")
        else none
      | none => none
    else if valComp = ">=" then
      match parseDecRat? valData with
      | some valNum =>
        if parseDecRatD fv < valNum ∧ (0 < fv.length ∨ tagReq = "true") then
          some (f.name ++ " Validation Failed: Expected To Be Greater or Equal")
        else none
      | none => none
    else if valComp = ">>" then
      match parseDecRat? valData with
      | some valNum =>
        if parseDecRatD fv ≤ valNum ∧ (0 < fv.length ∨ tagReq = "true") then
          some (f.name ++ " Validation Failed: Expected To Be Greater Than")
        else none
      | none => none
    else none

/-- Outcome of processing one field during CSV marshal: `skip` releases a
unique-group claim, `store` writes the slot and keeps the claim (the source's
"store blank and continue" branches are stores), `abort` fails the whole
call. -/
inductive CsvFieldOut where
  | skip
  | store (s : String)
  | abort (e : String)
deriving Repr, DecidableEq

def csvRender (f : StructField) : String × Bool × Option String :=
  ReflectValueToString f.value f.boolTrue f.boolFalse
    (ParseBool f.skipBlank) (ParseBool f.skipZero) f.timeFormat (ParseBool f.zeroBlank)

/-- The marshal-direction per-field body of `MarshalStructToCSV` (source
lines 1899-2220, getter indirection not modelled): render, the "unknown"
enum sentinel, kind extraction, the `type:"b"` literal special cases, default
substitution, minimum-size / truncation / modulo, numeric range, required
and validation checks, then the skip-blank/skip-zero/out-prefix store. -/
def csvMarshalField (f : StructField) : CsvFieldOut :=
  let r := csvRender f
  match r.2.2 with
  | some e => CsvFieldOut.abort e
  | none =>
    if r.2.1 then CsvFieldOut.skip
    else
      let fv0 := r.1
      let unknown := f.value.isIntKind ∧ f.value.intVal = 0 ∧ lowerStr fv0 = "unknown"
      let after? : Option String :=
        if unknown then
          if 0 < f.defVal.length then some f.defVal
          else
            match groupKey f with
            | some _ => none
            | none => some ""
        else some fv0
      match after? with
      | none => CsvFieldOut.skip
      | some fv1 =>
        let tagType := csvTagType f
        let tagRegEx := Trim f.regex
        let sp := sizeParts f
        let mm := sizeMinMax sp.1
        let tagModulo := sp.2
        let rr := sizeMinMax (Trim (lowerStr f.rng))
        let tagReq := csvTagReq f
        let origFv := fv1
        let bT := f.boolTrue
        let bF := f.boolFalse
        -- type-based conversion, with the two store-blank-and-continue cases
        let conv : CsvFieldOut :=
          if tagType = "b" then
            if bT.length = 0 ∧ bF.length = 0 then
              CsvFieldOut.store (if inTrueList fv1 then "true" else "false")
            else if Trim bT = Trim bF ∧ fv1 = "false" then CsvFieldOut.abort ""
            else CsvFieldOut.store fv1
          else CsvFieldOut.store (csvExtract tagType tagRegEx fv1)
        match conv with
        | CsvFieldOut.abort _ => CsvFieldOut.store ""
        | CsvFieldOut.skip => CsvFieldOut.skip
        | CsvFieldOut.store fv2 =>
          if bF = " " ∧ origFv = "false" ∧ 0 < f.outPfx.length then CsvFieldOut.store ""
          else
            let fv3 := if fv2.length = 0 ∧ 0 < f.defVal.length then f.defVal else fv2
            if isFilterType tagType ∧ 0 < mm.1 ∧ 0 < fv3.length ∧ (fv3.length : Int) < mm.1 then
              CsvFieldOut.abort (f.name ++ " Min Length")
            else
              let fv4 :=
                if isFilterType tagType ∧ 0 < mm.2 ∧ (fv3.length : Int) > mm.2 then
                  Left fv3 mm.2.toNat
                else fv3
              if isFilterType tagType ∧ 0 < tagModulo ∧ (fv4.length : Int) % tagModulo ≠ 0 then
                CsvFieldOut.abort ("Struct Field " ++ f.name ++ " Expects Value In Blocks")
              else
                let rangeBad : Option String :=
                  if tagType = "n" then
                    match ParseInt32 fv4 with
                    | some n =>
                      if 0 < rr.1 ∧ n < rr.1 ∧ ¬(n = 0 ∧ tagReq ≠ "true") then
                        some (f.name ++ " Range Minimum")
                      else if 0 < rr.2 ∧ n > rr.2 then some (f.name ++ " Range Maximum")
                      else none
                    | none => none
                  else none
                match rangeBad with
                | some e => CsvFieldOut.abort e
                | none =>
                  if tagReq = "true" ∧ fv4.length = 0 then
                    CsvFieldOut.abort (f.name ++ " is a Required Field")
                  else
                    match csvMarshalValidate f tagReq fv4 with
                    | some e => CsvFieldOut.abort e
                    | none =>
                      if ParseBool f.skipBlank ∧ LenTrim fv4 = 0 then CsvFieldOut.store ""
                      else if ParseBool f.skipZero ∧ fv4 = "0" then CsvFieldOut.store ""
                      else CsvFieldOut.store (f.outPfx ++ fv4)

/-- The CSV marshal walk: fields whose `pos` does not parse, is negative or
exceeds the slot count are skipped; unique-group claims follow the same
claim-then-release collapsing as `qpWalk`; an abort stops the call. -/
def csvMarshalWalk : List StructField → List String → List String → List String × Option String
  | [], _, csvList => (csvList, none)
  | f :: rest, claimed, csvList =>
    match ParseInt32 f.pos with
    | none => csvMarshalWalk rest claimed csvList
    | some p =>
      if p < 0 then csvMarshalWalk rest claimed csvList
      else if p > (csvList.length : Int) - 1 then csvMarshalWalk rest claimed csvList
      else
        match groupKey f with
        | some g =>
          if g ∈ claimed then csvMarshalWalk rest claimed csvList
          else
            match csvMarshalField f with
            | CsvFieldOut.abort e => (csvList, some e)
            | CsvFieldOut.skip => csvMarshalWalk rest claimed csvList
            | CsvFieldOut.store s => csvMarshalWalk rest (g :: claimed) (csvList.set p.toNat s)
        | none =>
          match csvMarshalField f with
          | CsvFieldOut.abort e => (csvList, some e)
          | CsvFieldOut.skip => csvMarshalWalk rest claimed csvList
          | CsvFieldOut.store s => csvMarshalWalk rest claimed (csvList.set p.toNat s)

/-- The not-set placeholder `"{?}"` marking slots excluded from output. -/
def notSetMark : String := "\x7b?\x7d"

def joinNonPlaceholder (l : List String) (delim : String) : String :=
  l.foldl
    (fun acc v =>
      if v == notSetMark then acc
      else (if 0 < LenTrim acc then acc ++ delim else acc) ++ v) ""

/-- `MarshalStructToCSV`: note the early `("", nil)` exit when no field is
set and required fields without defaults exist, and the plain assembly at the
end — a call where every slot stays at the placeholder yields `("", nil)`,
not an error. -/
def MarshalStructToCSV (r : Option Record) (csvDelimiter : String) : String × Option String :=
  match r with
  | none => ("", some "InputStructPtr is Required")
  | some rcd =>
    if IsStructFieldSet (some rcd) = false ∧ 0 < StructNonDefaultRequiredFieldsCount rcd then
      ("", none)
    else
      let w := csvMarshalWalk rcd [] (List.replicate rcd.length notSetMark)
      match w.2 with
      | some e => ("", some e)
      | none => (joinNonPlaceholder w.1 csvDelimiter, none)

/- ## Claim C1: blank-output error behavior of the three marshalers -/

/-- The record used in the C1 counterexample: its only field is unset (blank
string) and required without a default, so the CSV marshaler's early exit
fires and every field is skipped with no output produced. -/
def c1Rec : Record := [{ name := "A", pos := "0", req := "true", value := Value.vStr "" }]

/-- The per-kind "set" characterization actually implemented: string, int,
float and nullable-wrapper fields must differ from both zero and the declared
default, but a bool field is set whenever it is `true`, regardless of any
declared default (and a whitespace-only string counts as unset). -/
def FieldSetSpec (f : StructField) : Prop :=
  match f.value with
  | Value.vStr s => 0 < LenTrim s ∧ s ≠ f.defVal
  | Value.vBool b => b = true
  | Value.vInt n => n ≠ 0 ∧ Int64ToString n ≠ f.defVal
  | Value.vFloat t => floatIsZero t = false ∧ t ≠ f.defVal
  | Value.vTime t => t ≠ "" ∧ (f.defVal.length = 0 ∨ t ≠ f.defVal)
  | Value.vNullStr w =>
    match w with
    | none => False
    | some s => f.defVal.length = 0 ∨ s ≠ f.defVal
  | Value.vNullInt w =>
    match w with
    | none => False
    | some n => f.defVal.length = 0 ∨ Itoa n ≠ f.defVal

/- ## Claim C9: bool literal override round trip -/

def c9Field : StructField :=
  { name := "F", tagVal := "f", pos := "0", boolTrue := "Y", boolFalse := "N",
    value := Value.vBool true }

def c2RecA : StructField := { name := "A", pos := "0", value := Value.vStr "" }

def c2RecB : StructField := { name := "B", pos := "1", validate := "==a||b", value := Value.vStr "" }

def c2Field (nm s : String) : StructField :=
  { name := nm, pos := "0", validate := "==abc", value := Value.vStr s }

def c2FieldNe (nm s : String) : StructField :=
  { name := nm, pos := "0", validate := "!=abc", value := Value.vStr s }

def c2FieldLe (nm s : String) : StructField :=
  { name := nm, pos := "0", validate := "<=5", value := Value.vStr s }

def c2RecNaB : StructField :=
  { name := "B", pos := "1", validate := "!=a&&b", value := Value.vStr "" }

def c2RecConvB : StructField := { name := "B", pos := "1", value := Value.vInt 0 }

def c2jA : StructField := { name := "A", tagVal := "a", value := Value.vStr "" }

def c2jB : StructField := { name := "B", tagVal := "b", value := Value.vInt 0 }

/- C5 fields -/

def c5uPerm : StructField :=
  { name := "A", pos := "0", typ := "n", size := "4..6", rng := "10..20", value := Value.vStr "" }

def c5uMod : StructField :=
  { name := "A", pos := "0", typ := "n", size := "1..5+%2", value := Value.vStr "" }

def c5mMin (v : String) : StructField :=
  { name := "A", pos := "0", typ := "n", size := "4..6", value := Value.vStr v }

def c5mRange (v : String) : StructField :=
  { name := "A", pos := "0", typ := "n", rng := "10..20", value := Value.vStr v }

/- ## Claim C6: CSV ordinal truncation -/

/- C6 support -/

def c6FieldB : StructField := { name := "B", pos := "1", value := Value.vStr "" }

/-- A plain ordinal field: string-kind value, no size rule, no validation
expression, no output prefix. -/
def plainCsvField (f : StructField) : Prop :=
  (∃ s, f.value = Value.vStr s) ∧ f.size = "" ∧ Trim f.validate = "" ∧ Trim f.outPfx = ""

def c6wA : StructField := { name := "A", pos := "0", value := Value.vStr "" }

def c6wB : StructField := { name := "B", pos := "1", defVal := "d", value := Value.vStr "" }

/-- Character lists the string scanner consumes as one quoted value: every
backslash is followed by one more character, and unescaped characters are
neither quotes nor backslashes. -/
inductive ScanSafe : List Char → Prop where
  | nil : ScanSafe []
  | esc (c : Char) (cs : List Char) : ScanSafe cs → ScanSafe (bslash :: c :: cs)
  | chr (c : Char) (cs : List Char) : c ≠ dquote → c ≠ bslash → ScanSafe cs →
      ScanSafe (c :: cs)

/-- The two-field record refuting the round-trip claim: both fields carry the
same `uniqueid` group, so only the first is marshaled. -/
def c3fA : StructField := { name := "A", tagVal := "a", uniqueId := "g", value := Value.vStr "x" }

def c3fB : StructField := { name := "B", tagVal := "b", uniqueId := "g", value := Value.vStr "y" }

def c3fB0 : StructField := { name := "B", tagVal := "b", uniqueId := "g", value := Value.vStr "" }

/-- The per-field hypotheses of the amended JSON round-trip. -/
def boolLitOK (f : StructField) : Prop :=
  match f.value with
  | Value.vBool _ =>
    (LenTrim f.boolTrue = 0 ∧ LenTrim f.boolFalse = 0) ∨
    (0 < LenTrim f.boolTrue ∧ 0 < LenTrim f.boolFalse ∧ f.boolTrue ≠ f.boolFalse ∧
      bslash ∉ f.boolTrue.data ∧ bslash ∉ f.boolFalse.data)
  | _ => LenTrim f.boolTrue = 0 ∧ LenTrim f.boolFalse = 0

def valueOK (f : StructField) : Prop :=
  match f.value with
  | Value.vStr s => bslash ∉ s.data ∧ (0 < f.defVal.length → s ≠ "")
  | Value.vBool _ => True
  | Value.vInt _ => True
  | Value.vFloat t => validFloatChars t.data = true
  | Value.vTime t => bslash ∉ t.data ∧ (0 < f.defVal.length → t ≠ "")
  | Value.vNullStr w =>
    match w with
    | none => f.defVal = ""
    | some s => bslash ∉ s.data ∧ (0 < f.defVal.length → s ≠ "")
  | Value.vNullInt w =>
    match w with
    | none => f.defVal = ""
    | some _ => True

def fieldRT (f : StructField) : Prop :=
  Trim f.tagVal = f.tagVal ∧
  effTag f ≠ "-" ∧
  dquote ∉ (effTag f).data ∧
  bslash ∉ (effTag f).data ∧
  groupKey f = none ∧
  f.outPfx = "" ∧
  ParseBool f.skipBlank = false ∧
  ParseBool f.skipZero = false ∧
  ParseBool f.zeroBlank = false ∧
  boolLitOK f ∧
  valueOK f

/-- The value text the JSON marshaler emits for a round-trip-safe field. -/
def c3EmitVal (f : StructField) : Option String :=
  match f.value with
  | Value.vStr s => some ⟨escQuotes s.data⟩
  | Value.vBool b =>
    some ⟨escQuotes (if b then (if 0 < LenTrim f.boolTrue then f.boolTrue else "true")
      else (if 0 < LenTrim f.boolFalse then f.boolFalse else "false")).data⟩
  | Value.vInt n => some ⟨escQuotes (Int64ToString n).data⟩
  | Value.vFloat t => some ⟨escQuotes t.data⟩
  | Value.vTime t => some ⟨escQuotes t.data⟩
  | Value.vNullStr w => w.map (fun s => (⟨escQuotes s.data⟩ : String))
  | Value.vNullInt w => w.map (fun n => (⟨escQuotes (Int64ToString n).data⟩ : String))

/-- Clear-then-default, the state every field is in when the JSON unmarshal
walk reaches it. -/
def clearDefault (f : StructField) : StructField :=
  applyFieldDefault { f with value := clearValue f.value }

def c3w1 : StructField := { name := "S", tagVal := "s", value := Value.vStr "hi" }

def c3w2 : StructField :=
  { name := "B", tagVal := "flag", boolTrue := "Y", boolFalse := "N",
    value := Value.vBool true }

/- ## Theorems -/

theorem dChar_toNat {d : Nat} (h : d < 10) : (dChar d).toNat = 48 + d := by
  interval_cases d <;> decide

theorem charDigit_dChar {d : Nat} (h : d < 10) : charDigit (dChar d) = d := by
  interval_cases d <;> decide

theorem isDigitCh_dChar {d : Nat} (h : d < 10) : isDigitCh (dChar d) = true := by
  interval_cases d <;> decide

theorem parseNatChars_natToChars (n : Nat) : parseNatChars (natToChars n) = n := by
  unfold parseNatChars natToChars
  rw [List.map_reverse, List.reverse_reverse, List.map_map]
  have hmap : (Nat.digits 10 n).map (charDigit ∘ dChar) = (Nat.digits 10 n).map id := by
    apply List.map_congr_left
    intro d hd
    exact charDigit_dChar (Nat.digits_lt_base (by norm_num) hd)
  rw [hmap, List.map_id, Nat.ofDigits_digits]

theorem natToChars_all_digits (n : Nat) : (natToChars n).all isDigitCh = true := by
  apply List.all_eq_true.mpr
  intro c hc
  unfold natToChars at hc
  rw [List.mem_reverse] at hc
  obtain ⟨d, hd, rfl⟩ := List.mem_map.mp hc
  exact isDigitCh_dChar (Nat.digits_lt_base (by norm_num) hd)

theorem natToString_all_digits (n : Nat) : (NatToString n).data.all isDigitCh = true := by
  unfold NatToString
  by_cases h : n = 0
  · simp [h]; decide
  · simp [h, natToChars_all_digits]

theorem natToString_ne_nil (n : Nat) : (NatToString n).data ≠ [] := by
  unfold NatToString natToChars
  by_cases h : n = 0
  · simp [h]
  · simp only [h, if_false]
    simp [Nat.digits_ne_nil_iff_ne_zero, h]

theorem parseNatChars?_natToString (n : Nat) :
    parseNatChars? (NatToString n).data = some n := by
  unfold parseNatChars?
  rw [if_pos ⟨natToString_ne_nil n, natToString_all_digits n⟩]
  by_cases h : n = 0
  · subst h; decide
  · unfold NatToString
    simp only [h, if_false]
    rw [parseNatChars_natToChars]

theorem parseInt64_int64ToString (i : Int) : ParseInt64 (Int64ToString i) = some i := by
  unfold ParseInt64 Int64ToString
  by_cases h : i < 0
  · simp only [h, if_true]
    show parseIntChars ('-' :: (NatToString i.natAbs).data) = some i
    simp only [parseIntChars, if_pos rfl, parseNatChars?_natToString, Option.map_some]
    show some (-(i.natAbs : Int)) = some i
    exact congrArg some (by omega)
  · simp only [h, if_false]
    obtain ⟨c, rest, hc⟩ : ∃ c rest, (NatToString i.natAbs).data = c :: rest := by
      cases hd : (NatToString i.natAbs).data with
      | nil => exact absurd hd (natToString_ne_nil _)
      | cons c rest => exact ⟨c, rest, rfl⟩
    have hdig : isDigitCh c = true := by
      have := natToString_all_digits i.natAbs
      rw [hc] at this
      simp [List.all_cons] at this
      exact this.1
    have hne : c ≠ '-' := by
      intro heq
      rw [heq] at hdig
      simp [isDigitCh] at hdig
    show parseIntChars (NatToString i.natAbs).data = some i
    rw [hc]
    simp only [parseIntChars, if_neg hne]
    rw [← hc, parseNatChars?_natToString]
    show some ((i.natAbs : Int)) = some i
    exact congrArg some (by omega)

theorem filter_single_group_eq {f : StructField} {g : String} (hgk : groupKey f = some g) :
    List.filter (fun x => decide (groupKey x = some g)) [f] = [f] := by
  simp [List.filter, hgk]

theorem filter_single_group_ne {f : StructField} {g g2 : String}
    (hgk : groupKey f = some g2) (hne : g2 ≠ g) :
    List.filter (fun x => decide (groupKey x = some g)) [f] = [] := by
  simp [List.filter, hgk, hne]

theorem filter_single_group_none {f : StructField} {g : String} (hgk : groupKey f = none) :
    List.filter (fun x => decide (groupKey x = some g)) [f] = [] := by
  simp [List.filter, hgk]

theorem qpWalk_claimed_group (exG : Bool) (g : String) :
    ∀ (fields : List StructField) (claimed : List String) (out : String)
      (emitted : List StructField), g ∈ claimed →
      (qpWalk exG fields claimed out emitted).2.2.filter (fun x => decide (groupKey x = some g)) =
        emitted.filter (fun x => decide (groupKey x = some g)) := by
  intro fields
  induction fields with
  | nil => intro claimed out emitted _; simp [qpWalk]
  | cons f rest ih =>
    intro claimed out emitted hg
    simp only [qpWalk]
    by_cases he : eligible exG f = true
    · rw [if_pos he]
      cases hgk : groupKey f with
      | none =>
        dsimp only []
        cases hpb : qpProduceBuf f with
        | none => dsimp only []; exact ih _ _ _ hg
        | some b =>
          dsimp only []
          rw [ih _ _ _ hg, List.filter_append, filter_single_group_none hgk, List.append_nil]
      | some g2 =>
        dsimp only []
        by_cases hmem : g2 ∈ claimed
        · rw [if_pos hmem]
          exact ih _ _ _ hg
        · rw [if_neg hmem]
          have hne : g2 ≠ g := fun hEq => hmem (hEq ▸ hg)
          cases hpb : qpProduceBuf f with
          | none => dsimp only []; exact ih _ _ _ hg
          | some b =>
            dsimp only []
            rw [ih _ _ _ (List.mem_cons_of_mem _ hg), List.filter_append,
              filter_single_group_ne hgk hne, List.append_nil]
    · rw [if_neg he]
      exact ih _ _ _ hg

theorem qpWalk_group_free (exG : Bool) (g : String) :
    ∀ (fields : List StructField) (claimed : List String) (out : String)
      (emitted : List StructField), g ∉ claimed →
      (qpWalk exG fields claimed out emitted).2.2.filter (fun x => decide (groupKey x = some g)) =
        emitted.filter (fun x => decide (groupKey x = some g)) ++
          (fields.filter (fun x =>
            eligible exG x && decide (groupKey x = some g) && (qpProduceBuf x).isSome)).take 1 := by
  intro fields
  induction fields with
  | nil => intro claimed out emitted _; simp [qpWalk]
  | cons f rest ih =>
    intro claimed out emitted hg
    simp only [qpWalk]
    by_cases he : eligible exG f = true
    · rw [if_pos he]
      cases hgk : groupKey f with
      | none =>
        dsimp only []
        have hfil : (eligible exG f && decide (groupKey f = some g) && (qpProduceBuf f).isSome) = false := by
          simp [hgk]
        cases hpb : qpProduceBuf f with
        | none =>
          dsimp only []
          rw [ih _ _ _ hg, List.filter_cons_of_neg (by simp [hfil])]
        | some b =>
          dsimp only []
          rw [ih _ _ _ hg, List.filter_cons_of_neg (by simp [hfil]), List.filter_append,
            filter_single_group_none hgk, List.append_nil]
      | some g2 =>
        dsimp only []
        by_cases heq : g2 = g
        · subst heq
          have hmem : ¬g2 ∈ claimed := hg
          rw [if_neg hmem]
          cases hpb : qpProduceBuf f with
          | none =>
            dsimp only []
            rw [ih _ _ _ hg]
            have hfil : (eligible exG f && decide (groupKey f = some g2) && (qpProduceBuf f).isSome) = false := by
              simp [hpb]
            rw [List.filter_cons_of_neg (by simp [hfil])]
          | some b =>
            dsimp only []
            have hfil : (eligible exG f && decide (groupKey f = some g2) && (qpProduceBuf f).isSome) = true := by
              simp [he, hgk, hpb]
            rw [List.filter_cons_of_pos (by simp [hfil])]
            rw [qpWalk_claimed_group exG g2 rest _ _ _ (List.mem_cons_self _ _)]
            rw [List.filter_append, filter_single_group_eq hgk]
            simp [List.take]
        · by_cases hmem : g2 ∈ claimed
          · rw [if_pos hmem]
            rw [ih _ _ _ hg]
            have hfil : (eligible exG f && decide (groupKey f = some g) && (qpProduceBuf f).isSome) = false := by
              simp [hgk, heq]
            rw [List.filter_cons_of_neg (by simp [hfil])]
          · rw [if_neg hmem]
            have hfil : (eligible exG f && decide (groupKey f = some g) && (qpProduceBuf f).isSome) = false := by
              simp [hgk, heq]
            cases hpb : qpProduceBuf f with
            | none =>
              dsimp only []
              rw [ih _ _ _ hg, List.filter_cons_of_neg (by simp [hfil])]
            | some b =>
              dsimp only []
              have hg2 : g ∉ (g2 :: claimed) := by
                intro hmem2
                rcases List.mem_cons.mp hmem2 with h1 | h1
                · exact heq h1.symm
                · exact hg h1
              rw [ih _ _ _ hg2, List.filter_append, filter_single_group_ne hgk heq,
                List.append_nil, List.filter_cons_of_neg (by simp [hfil])]
    · rw [if_neg he]
      rw [ih _ _ _ hg]
      have hfil : (eligible exG f && decide (groupKey f = some g) && (qpProduceBuf f).isSome) = false := by
        simp [Bool.not_eq_true] at he
        simp [he]
      rw [List.filter_cons_of_neg (by simp [hfil])]

/-- **C4.** Unique-group exclusivity on the query-params marshal walk: among
fields sharing a `uniqueid` group, at most one is emitted, and the one
emitted is exactly the first field in declaration order that actually
produces a non-skipped buffer (a skip or render error on the field holding
the claim releases it, so a later same-group field may still be emitted). -/
theorem uniqueGroup_exclusivity (rcd : Record) (exG : Bool) (g : String) :
    ((qpEmitted rcd exG).filter (fun x => decide (groupKey x = some g))).length ≤ 1 ∧
    (qpEmitted rcd exG).filter (fun x => decide (groupKey x = some g)) =
      (rcd.filter (fun x =>
        eligible exG x && decide (groupKey x = some g) && (qpProduceBuf x).isSome)).take 1 := by
  have h := qpWalk_group_free exG g rcd [] "" [] (by simp)
  unfold qpEmitted
  simp only [List.filter_nil, List.nil_append] at h
  refine ⟨?_, h⟩
  rw [h, List.length_take]
  exact min_le_left _ _

/-- **C1 counterexample.** `MarshalStructToCSV` succeeds with an empty string
when every field is skipped and no output is produced, contradicting the
claim that every marshal operation returns a blank-output error. -/
theorem c1_csv_blank_counterexample :
    MarshalStructToCSV (some c1Rec) "," = ("", none) := by rfl

theorem csvMarshalWalk_no_pos :
    ∀ (fields : List StructField) (claimed csvList : List String),
      (∀ f ∈ fields, ParseInt32 f.pos = none) →
      csvMarshalWalk fields claimed csvList = (csvList, none) := by
  intro fields
  induction fields with
  | nil => intro claimed csvList _; rfl
  | cons f rest ih =>
    intro claimed csvList h
    simp only [csvMarshalWalk]
    rw [h f (List.mem_cons_self _ _)]
    exact ih claimed csvList (fun g hg => h g (List.mem_cons_of_mem _ hg))

theorem joinNonPlaceholder_replicate (n : Nat) (d : String) :
    joinNonPlaceholder (List.replicate n notSetMark) d = "" := by
  have h : ∀ (l : List String), (∀ v ∈ l, v = notSetMark) →
      ∀ acc, l.foldl
        (fun acc v => if v == notSetMark then acc
          else (if 0 < LenTrim acc then acc ++ d else acc) ++ v) acc = acc := by
    intro l
    induction l with
    | nil => intro _ acc; rfl
    | cons v rest ih =>
      intro hl acc
      simp only [List.foldl_cons]
      rw [if_pos (by rw [hl v (List.mem_cons_self _ _)]; rfl)]
      exact ih (fun u hu => hl u (List.mem_cons_of_mem _ hu)) acc
  exact h _ (fun v hv => List.eq_of_mem_replicate hv) ""

/-- **C1 (amended).** `MarshalStructToQueryParams` and `MarshalStructToJson`
do return an error alongside an empty string when no field produces output
(success implies non-blank output), but `MarshalStructToCSV` returns the
empty string with a nil error when every field is skipped. -/
theorem c1_blank_output_amended :
    (∀ (rcd : Record) (tg exg : Bool),
      (MarshalStructToQueryParams (some rcd) tg exg).2 = none →
      0 < LenTrim (MarshalStructToQueryParams (some rcd) tg exg).1) ∧
    (∀ (rcd : Record) (tg exg : Bool),
      (MarshalStructToJson (some rcd) tg exg).2 = none →
      0 < (MarshalStructToJson (some rcd) tg exg).1.length) ∧
    (∀ (rcd : Record) (d : String),
      (∀ f ∈ rcd, ParseInt32 f.pos = none) →
      MarshalStructToCSV (some rcd) d = ("", none)) := by
  refine ⟨?_, ?_, ?_⟩
  · intro rcd tg exg h
    unfold MarshalStructToQueryParams at *
    dsimp only [] at h ⊢
    by_cases htg : tg = false
    · rw [if_pos htg] at h; exact absurd h (by simp)
    · rw [if_neg htg] at *
      by_cases hb : LenTrim (qpWalk exg rcd [] "" []).1 = 0
      · rw [if_pos hb] at h; exact absurd h (by simp)
      · rw [if_neg hb]
        dsimp only []
        omega
  · intro rcd tg exg h
    unfold MarshalStructToJson at *
    dsimp only [] at h ⊢
    by_cases htg : tg = false
    · rw [if_pos htg] at h; exact absurd h (by simp)
    · rw [if_neg htg] at *
      by_cases hb : (jsonPairs rcd exg).isEmpty = true
      · rw [if_pos hb] at h; exact absurd h (by simp)
      · rw [if_neg hb]
        simp [String.length]
  · intro rcd d h
    unfold MarshalStructToCSV
    dsimp only []
    by_cases hearly : IsStructFieldSet (some rcd) = false ∧ 0 < StructNonDefaultRequiredFieldsCount rcd
    · rw [if_pos hearly]
    · rw [if_neg hearly]
      rw [csvMarshalWalk_no_pos rcd [] _ h]
      simp only []
      rw [joinNonPlaceholder_replicate]

/-- **C1 witness.** Concrete instances of the three amended conjuncts. -/
theorem c1_blank_output_amended_witness :
    (0 < LenTrim (MarshalStructToQueryParams
      (some [{ name := "A", value := Value.vStr "x" }]) true false).1) ∧
    MarshalStructToCSV (some [{ name := "A", value := Value.vStr "x" }]) "," = ("", none) :=
  ⟨c1_blank_output_amended.1 [{ name := "A", value := Value.vStr "x" }] true false (by rfl),
   c1_blank_output_amended.2.2 [{ name := "A", value := Value.vStr "x" }] ","
     (by intro f hf; simp at hf; subst hf; rfl)⟩

/- ## Claim C7: return value of SetStructFieldDefaultValues -/

/-- **C7 counterexample.** A record none of whose fields declares a default:
the claim says the call returns whether any field declares a default (false
here), but the source returns `true` for every valid struct pointer. -/
theorem c7_defaults_return_counterexample :
    ([({ name := "A", value := Value.vStr "x" } : StructField)].all
      (fun g => g.defVal.length = 0)) = true ∧
    (SetStructFieldDefaultValues (some [{ name := "A", value := Value.vStr "x" }])).2 = true := by
  exact ⟨rfl, rfl⟩

/-- **C7 (amended).** `SetStructFieldDefaultValues` returns `true` for every
valid struct-pointer input regardless of whether any field declares a
default, and `false` only for the nil/non-pointer/non-struct early exits. -/
theorem c7_defaults_return_amended :
    (∀ (rcd : Record), (SetStructFieldDefaultValues (some rcd)).2 = true) ∧
    (SetStructFieldDefaultValues none).2 = false := by
  exact ⟨fun _ => rfl, rfl⟩

/- ## Claim C8: IsStructFieldSet and declared defaults -/

/-- **C8 counterexample.** A bool field whose value `true` equals its declared
default `def:"true"`: the claim says a field equal to its declared default is
never considered set, but the source's bool case checks only the zero value
and reports the record as set. -/
theorem c8_bool_default_counterexample :
    IsStructFieldSet (some [{ name := "B", defVal := "true", value := Value.vBool true }]) = true ∧
    ParseBool ({ name := "B", defVal := "true", value := Value.vBool true } : StructField).defVal
      = true := by
  exact ⟨rfl, rfl⟩

theorem fieldIsSetCheck_iff (f : StructField) : fieldIsSetCheck f = true ↔ FieldSetSpec f := by
  unfold fieldIsSetCheck FieldSetSpec
  cases hv : f.value with
  | vStr s =>
    by_cases h1 : 0 < LenTrim s
    · simp [h1]
    · simp [h1]
  | vBool b => cases b <;> simp
  | vInt n =>
    by_cases h1 : n ≠ 0
    · simp [h1]
    · simp [h1]
  | vFloat t =>
    by_cases h1 : floatIsZero t
    · simp [h1]
    · simp only [Bool.not_eq_true] at h1
      simp [h1]
  | vTime t =>
    by_cases h1 : t ≠ ""
    · by_cases h2 : f.defVal.length = 0
      · simp [h1, h2]
      · simp [h1, h2]
    · simp [h1]
  | vNullStr w =>
    cases w with
    | none => simp
    | some s =>
      by_cases h2 : f.defVal.length = 0
      · simp [h2]
      · simp [h2]
  | vNullInt w =>
    cases w with
    | none => simp
    | some n =>
      by_cases h2 : f.defVal.length = 0
      · simp [h2]
      · simp [h2]

/-- **C8 (amended).** `IsStructFieldSet` returns true exactly when some field
satisfies the per-kind set characterization `FieldSetSpec`: differing from
zero and from the declared default for string/int/float/nullable kinds, but
for bool fields simply being `true` — the declared default is ignored there. -/
theorem c8_isStructFieldSet_amended (rcd : Record) :
    IsStructFieldSet (some rcd) = true ↔ ∃ f ∈ rcd, FieldSetSpec f := by
  show rcd.any fieldIsSetCheck = true ↔ _
  rw [List.any_eq_true]
  constructor
  · rintro ⟨f, hf, hc⟩
    exact ⟨f, hf, (fieldIsSetCheck_iff f).mp hc⟩
  · rintro ⟨f, hf, hs⟩
    exact ⟨f, hf, (fieldIsSetCheck_iff f).mpr hs⟩

/-- **C9.** A bool field with `booltrue:"Y"`/`boolfalse:"N"` and value `true`
marshals to the text `"Y"` (CSV and JSON), and the text `"Y"` unmarshals back
to boolean `true` through both `UnmarshalCSVToStruct` and
`UnmarshalJsonToStruct`, via the literal-to-canonical normalization. -/
theorem c9_bool_literal_roundtrip :
    MarshalStructToCSV (some [c9Field]) "," = ("Y", none) ∧
    MarshalStructToJson (some [c9Field]) true false = ("\x7b\"f\":\"Y\"\x7d", none) ∧
    UnmarshalCSVToStruct (some [{ c9Field with value := Value.vBool false }]) "Y" ',' =
      (some [c9Field], none) ∧
    UnmarshalJsonToStruct (some [{ c9Field with value := Value.vBool false }])
      "\x7b\"f\":\"Y\"\x7d" true false = (some [c9Field], none) := by
  exact ⟨rfl, rfl, rfl, rfl⟩

/- ## Claim C10: decode failures leave the record untouched -/

/-- **C10.** Every `UnmarshalJsonToStruct` call whose payload does not decode
into a non-empty key/value map — malformed JSON, or the valid-but-empty
object which is rejected with its own error — returns an error before the
record is cleared or defaults applied, leaving the record exactly as passed
in. -/
theorem c10_decode_error_leaves_record (rcd : Record) (payload : String) (tg exg : Bool)
    (h : jsonDecodeObject payload = none ∨ jsonDecodeObject payload = some []) :
    (UnmarshalJsonToStruct (some rcd) payload tg exg).1 = some rcd ∧
    (UnmarshalJsonToStruct (some rcd) payload tg exg).2.isSome = true := by
  unfold UnmarshalJsonToStruct
  dsimp only []
  by_cases h1 : LenTrim payload = 0
  · rw [if_pos h1]; exact ⟨rfl, rfl⟩
  · rw [if_neg h1]
    by_cases h2 : tg = false
    · rw [if_pos h2]; exact ⟨rfl, rfl⟩
    · rw [if_neg h2]
      rcases h with h3 | h3 <;> rw [h3]
      · exact ⟨rfl, rfl⟩
      · exact ⟨rfl, rfl⟩

/-- **C10 witness.** The empty JSON object `{}` decodes to an empty map and is
rejected, leaving a concrete one-field record untouched. -/
theorem c10_decode_error_leaves_record_witness :
    (UnmarshalJsonToStruct (some [{ name := "A", value := Value.vStr "keep" }])
        "\x7b\x7d" true false).1 = some [{ name := "A", value := Value.vStr "keep" }] ∧
    (UnmarshalJsonToStruct (some [{ name := "A", value := Value.vStr "keep" }])
        "\x7b\x7d" true false).2.isSome = true :=
  c10_decode_error_leaves_record [{ name := "A", value := Value.vStr "keep" }]
    "\x7b\x7d" true false (Or.inr (by rfl))

/- ## Claim C2: record state on unmarshal errors -/

theorem splitChar_no_delim {d : Char} : ∀ {cs : List Char}, d ∉ cs → splitChar d cs = [cs] := by
  intro cs
  induction cs with
  | nil => intro _; rfl
  | cons c rest ih =>
    intro h
    have hc : ¬c = d := fun hEq => h (hEq ▸ List.mem_cons_self _ _)
    have hrest : d ∉ rest := fun hm => h (List.mem_cons_of_mem _ hm)
    simp only [splitChar, ih hrest]
    rw [if_neg hc]

theorem string_eta (t : String) : (⟨t.data⟩ : String) = t := by
  cases t
  rfl

theorem splitString_no_delim {t : String} {d : Char} (h : d ∉ t.data) :
    SplitString t d = [t] := by
  unfold SplitString
  rw [splitChar_no_delim h]
  simp [string_eta]

/-- **C2 counterexample.** A multi-value `==`( `||` ) validation failure on the
second field returns its error *without* clearing the record (source lines
1564-1566 have no `StructClearFields` call, unlike the single-value branch at
1550-1551): the first field keeps the token already written into it, so a
partially-populated record is observable after the failed unmarshal. -/
theorem c2_partial_record_counterexample :
    UnmarshalCSVToStruct (some [c2RecA, c2RecB]) "hello,zzz" ',' =
      (some [{ c2RecA with value := Value.vStr "hello" }, c2RecB],
        some "B Validation Failed: Expected To Match One Of") ∧
    ({ c2RecA with value := Value.vStr "hello" } : StructField).value ≠
      (clearValue c2RecA.value) := by
  exact ⟨rfl, by simp [c2RecA, clearValue]⟩

set_option maxHeartbeats 16000000 in
/-- **C2 (amended).** Only the single-value validation branches reset the
record.  Proven here: (1) a single-value `==` failure clears the record to
zero state before returning its error, for any prior value and any
non-matching token; (2) a single-value `!=` failure clears likewise; (3) a
failing `<=` numeric comparison clears likewise; (4) a multi-value
`!=`(`&&`) failure returns the record in its current, partially-populated
state without clearing; (5) a CSV field-conversion error likewise returns
the partial record; (6) a field-conversion error in `UnmarshalJsonToStruct`
also returns the partially-overlaid record, not a cleared one. -/
theorem c2_validation_clear_amended :
    (∀ nm s t : String, 0 < t.length → 0 < LenTrim t → lowerStr t ≠ lowerStr "abc" →
      ',' ∉ t.data →
      UnmarshalCSVToStruct (some [c2Field nm s]) t ',' =
        (some [{ c2Field nm s with value := Value.vStr "" }],
          some (nm ++ " Validation Failed: Expected To Match"))) ∧
    (∀ nm s : String,
      UnmarshalCSVToStruct (some [c2FieldNe nm s]) "abc" ',' =
        (some [{ c2FieldNe nm s with value := Value.vStr "" }],
          some (nm ++ " Validation Failed: Expected To Not Match"))) ∧
    (∀ nm s : String,
      UnmarshalCSVToStruct (some [c2FieldLe nm s]) "7" ',' =
        (some [{ c2FieldLe nm s with value := Value.vStr "" }],
          some (nm ++ " Validation Failed: Expected To Be Less or Equal"))) ∧
    (UnmarshalCSVToStruct (some [c2RecA, c2RecNaB]) "hello,a" ',' =
      (some [{ c2RecA with value := Value.vStr "hello" }, c2RecNaB],
        some "B Validation Failed: Expected To Not Match Any Of")) ∧
    (UnmarshalCSVToStruct (some [c2RecA, c2RecConvB]) "hello,xyz" ',' =
      (some [{ c2RecA with value := Value.vStr "hello" }, c2RecConvB],
        some "ReflectStringToField Int Parse Failed")) ∧
    (UnmarshalJsonToStruct (some [c2jA, c2jB]) "\x7b\"a\":\"hello\", \"b\":\"xyz\"\x7d" true false =
      (some [{ c2jA with value := Value.vStr "hello" }, c2jB],
        some "ReflectStringToField Int Parse Failed")) := by
  refine ⟨?_, fun nm s => rfl, fun nm s => rfl, rfl, rfl, rfl⟩
  intro nm s t h1 h2 h3 h4
  have hval : csvUnmarshalValidate { c2Field nm s with value := Value.vStr "" } "" t =
      ValOutcome.failClear (nm ++ " Validation Failed: Expected To Match") := by
    show (if lowerStr t ≠ lowerStr "abc" ∧ (0 < t.length ∨ ("" : String) = "true")
      then ValOutcome.failClear (nm ++ " Validation Failed: Expected To Match")
      else ValOutcome.pass) = _
    rw [if_pos ⟨h3, Or.inl h1⟩]
  have step : csvUnmarshalGo [t] 1 [] [] [{ c2Field nm s with value := Value.vStr "" }] =
      (match csvUnmarshalValidate { c2Field nm s with value := Value.vStr "" } "" t with
        | ValOutcome.failClear msg =>
          (StructClearFields [{ c2Field nm s with value := Value.vStr "" }], some msg)
        | ValOutcome.failKeep msg =>
          ([{ c2Field nm s with value := Value.vStr "" }], some msg)
        | ValOutcome.pass => ([{ c2Field nm s with value := Value.vStr t }], none)) := by
    rfl
  have hmain : UnmarshalCSVToStruct (some [c2Field nm s]) t ',' =
      (some (csvUnmarshalGo [t] 1 [] [] [{ c2Field nm s with value := Value.vStr "" }]).1,
        (csvUnmarshalGo [t] 1 [] [] [{ c2Field nm s with value := Value.vStr "" }]).2) := by
    unfold UnmarshalCSVToStruct
    dsimp only []
    rw [if_neg (by omega : ¬LenTrim t = 0)]
    rw [splitString_no_delim h4]
    rfl
  rw [hmain, step, hval]
  rfl

/-- **C2 witness.** Concrete instances of the quantified clearing conjuncts
of the amended theorem. -/
theorem c2_validation_clear_amended_witness :
    UnmarshalCSVToStruct (some [c2Field "B" "old"]) "zzz" ',' =
      (some [{ c2Field "B" "old" with value := Value.vStr "" }],
        some ("B" ++ " Validation Failed: Expected To Match")) ∧
    UnmarshalCSVToStruct (some [c2FieldNe "B" "old"]) "abc" ',' =
      (some [{ c2FieldNe "B" "old" with value := Value.vStr "" }],
        some ("B" ++ " Validation Failed: Expected To Not Match")) ∧
    UnmarshalCSVToStruct (some [c2FieldLe "B" "old"]) "7" ',' =
      (some [{ c2FieldLe "B" "old" with value := Value.vStr "" }],
        some ("B" ++ " Validation Failed: Expected To Be Less or Equal")) :=
  ⟨c2_validation_clear_amended.1 "B" "old" "zzz" (by decide) (by decide) (by decide)
      (by decide),
    c2_validation_clear_amended.2.1 "B" "old",
    c2_validation_clear_amended.2.2.1 "B" "old"⟩

/- ## Claim C5: asymmetric size/range enforcement between marshal and unmarshal -/

/- digit-text helper lemmas -/

theorem extractNumeric_digits {v : String} (h : v.data.all isDigitCh = true) :
    ExtractNumeric v = v := by
  unfold ExtractNumeric
  rw [List.filter_eq_self.mpr (List.all_eq_true.mp h)]

theorem white_false_of_digit {c : Char} (h : isDigitCh c = true) : isWhiteCh c = false := by
  unfold isDigitCh at h
  unfold isWhiteCh
  simp only [Bool.and_eq_true, decide_eq_true_eq] at h
  have h1 : ¬c = ' ' := by intro hEq; subst hEq; exact absurd h (by decide)
  have h2 : ¬c = '\t' := by intro hEq; subst hEq; exact absurd h (by decide)
  have h3 : ¬c = '\n' := by intro hEq; subst hEq; exact absurd h (by decide)
  have h4 : ¬c = '\r' := by intro hEq; subst hEq; exact absurd h (by decide)
  simp [h1, h2, h3, h4]

theorem trimChars_eq_self {cs : List Char} (h : ∀ c ∈ cs, isWhiteCh c = false) :
    trimChars cs = cs := by
  unfold trimChars
  have h1 : cs.dropWhile isWhiteCh = cs := by
    cases cs with
    | nil => rfl
    | cons c rest =>
      rw [List.dropWhile_cons_of_neg]
      simp [h c (List.mem_cons_self _ _)]
  rw [h1]
  have h2 : cs.reverse.dropWhile isWhiteCh = cs.reverse := by
    cases hrev : cs.reverse with
    | nil => rfl
    | cons c rest =>
      rw [List.dropWhile_cons_of_neg]
      have hm : c ∈ cs := by
        rw [← List.mem_reverse, hrev]
        exact List.mem_cons_self _ _
      simp [h c hm]
  rw [h2, List.reverse_reverse]

theorem trim_digits {t : String} (hd : t.data.all isDigitCh = true) : Trim t = t := by
  show (⟨trimChars t.data⟩ : String) = t
  rw [trimChars_eq_self (fun c hc => white_false_of_digit (List.all_eq_true.mp hd c hc))]

theorem lenTrim_digits {t : String} (hd : t.data.all isDigitCh = true) :
    LenTrim t = t.length := by
  unfold LenTrim
  rw [trim_digits hd]

theorem comma_not_mem_digits {t : String} (hd : t.data.all isDigitCh = true) :
    ',' ∉ t.data := by
  intro hmem
  have := List.all_eq_true.mp hd ',' hmem
  simp [isDigitCh] at this

theorem length_pos_ne_empty {t : String} (h : 0 < t.length) : t ≠ "" := by
  intro hEq
  subst hEq
  simp [String.length] at h

/- unmarshal: permissive below min and out of range -/

theorem c5uPerm_step (t : String) (h2 : t.data.all isDigitCh = true) (h3 : t.length ≤ 6) :
    csvUnmarshalGo [t] 1 [] [] [c5uPerm] =
      ([{ c5uPerm with value := Value.vStr t }], none) := by
  have hvalpass : ∀ x, csvUnmarshalValidate c5uPerm "" x = ValOutcome.pass := fun _ => rfl
  unfold csvUnmarshalGo
  dsimp only []
  simp only [show ParseInt32 c5uPerm.pos = some 0 from rfl,
    show csvTagType c5uPerm = "n" from rfl,
    show sizeParts c5uPerm = ("4..6", 0) from rfl,
    show sizeMinMax "4..6" = ((4 : Int), (6 : Int)) from rfl,
    show csvTagReq c5uPerm = "" from rfl,
    show Trim c5uPerm.outPfx = "" from rfl,
    show Trim c5uPerm.timeFormat = "" from rfl,
    show Trim c5uPerm.regex = "" from rfl,
    show LenTrim "" = 0 from rfl,
    show c5uPerm.value = Value.vStr "" from rfl,
    show Value.isGoStructKind (Value.vStr "") = false from rfl,
    show ∀ x, csvNormalizeBool c5uPerm x = x from fun _ => rfl,
    show List.getD [t] (Int.toNat 0) "" = t from rfl,
    show (("n" : String) = "a") = False from by decide,
    show (("n" : String) = "b") = False from by decide,
    show (("n" : String) = "an") = False from by decide,
    show (("n" : String) = "ans") = False from by decide,
    show (("n" : String) = "regex") = False from by decide,
    show (("n" : String) = "h") = False from by decide,
    show (("n" : String) = "b64") = False from by decide,
    isFilterType, csvExtract, extractNumeric_digits h2, hvalpass]
  simp only [if_true, if_false, ite_true, ite_false, decide_False, decide_True,
    Bool.false_eq_true, and_true, true_and, and_false, false_and, or_false, false_or,
    Bool.false_or, Bool.true_or, Bool.or_false, Bool.or_true,
    lt_irrefl, extractNumeric_digits h2,
    show ((0 : Int) > ((1 : Nat) : Int) - 1) = False from by norm_num]
  rw [if_neg (show ¬((0 : Int) < 6 ∧ (t.length : Int) > 6) from by
    rintro ⟨-, hgt⟩; omega)]
  rfl

theorem c5uPerm_call (t : String) (h1 : 0 < t.length) (h2 : t.data.all isDigitCh = true)
    (h3 : t.length ≤ 6) :
    UnmarshalCSVToStruct (some [c5uPerm]) t ',' =
      (some [{ c5uPerm with value := Value.vStr t }], none) := by
  have hlt : LenTrim t = t.length := lenTrim_digits h2
  unfold UnmarshalCSVToStruct
  dsimp only []
  rw [if_neg (by omega : ¬LenTrim t = 0)]
  rw [splitString_no_delim (comma_not_mem_digits h2)]
  show (if (1 : Nat) = 0 then _ else _) = _
  rw [if_neg (by norm_num : ¬(1 : Nat) = 0)]
  show (some (csvUnmarshalGo [t] 1 [] [] [c5uPerm]).1,
    (csvUnmarshalGo [t] 1 [] [] [c5uPerm]).2) = _
  rw [c5uPerm_step t h2 h3]

theorem c5uMod_step (t : String) (h2 : t.data.all isDigitCh = true)
    (h3 : t.length ≤ 5) (h4 : t.length % 2 = 1) :
    csvUnmarshalGo [t] 1 [] [] [c5uMod] =
      ([c5uMod], some ("Struct Field " ++ "A" ++ " Expects Value In Blocks")) := by
  unfold csvUnmarshalGo
  dsimp only []
  simp only [show ParseInt32 c5uMod.pos = some 0 from rfl,
    show csvTagType c5uMod = "n" from rfl,
    show sizeParts c5uMod = ("1..5", 2) from rfl,
    show sizeMinMax "1..5" = ((1 : Int), (5 : Int)) from rfl,
    show csvTagReq c5uMod = "" from rfl,
    show Trim c5uMod.outPfx = "" from rfl,
    show Trim c5uMod.timeFormat = "" from rfl,
    show Trim c5uMod.regex = "" from rfl,
    show LenTrim "" = 0 from rfl,
    show c5uMod.value = Value.vStr "" from rfl,
    show Value.isGoStructKind (Value.vStr "") = false from rfl,
    show ∀ x, csvNormalizeBool c5uMod x = x from fun _ => rfl,
    show List.getD [t] (Int.toNat 0) "" = t from rfl,
    show (("n" : String) = "a") = False from by decide,
    show (("n" : String) = "b") = False from by decide,
    show (("n" : String) = "an") = False from by decide,
    show (("n" : String) = "ans") = False from by decide,
    show (("n" : String) = "regex") = False from by decide,
    show (("n" : String) = "h") = False from by decide,
    show (("n" : String) = "b64") = False from by decide,
    isFilterType, csvExtract, extractNumeric_digits h2]
  simp only [if_true, if_false, ite_true, ite_false, decide_False, decide_True,
    Bool.false_eq_true, and_true, true_and, and_false, false_and, or_false, false_or,
    Bool.false_or, Bool.true_or, Bool.or_false, Bool.or_true,
    lt_irrefl, extractNumeric_digits h2,
    show ((0 : Int) > ((1 : Nat) : Int) - 1) = False from by norm_num]
  rw [if_neg (show ¬((0 : Int) < 5 ∧ (t.length : Int) > 5) from by
    rintro ⟨-, hgt⟩; omega)]
  rw [if_pos (show (0 : Int) < 2 ∧ (t.length : Int) % 2 ≠ 0 from by
    refine ⟨by norm_num, ?_⟩; omega)]
  rfl

theorem c5uMod_call (t : String) (h1 : 0 < t.length) (h2 : t.data.all isDigitCh = true)
    (h3 : t.length ≤ 5) (h4 : t.length % 2 = 1) :
    UnmarshalCSVToStruct (some [c5uMod]) t ',' =
      (some [c5uMod], some ("Struct Field " ++ "A" ++ " Expects Value In Blocks")) := by
  have hlt : LenTrim t = t.length := lenTrim_digits h2
  unfold UnmarshalCSVToStruct
  dsimp only []
  rw [if_neg (by omega : ¬LenTrim t = 0)]
  rw [splitString_no_delim (comma_not_mem_digits h2)]
  show (if (1 : Nat) = 0 then _ else _) = _
  rw [if_neg (by norm_num : ¬(1 : Nat) = 0)]
  show (some (csvUnmarshalGo [t] 1 [] [] [c5uMod]).1,
    (csvUnmarshalGo [t] 1 [] [] [c5uMod]).2) = _
  rw [c5uMod_step t h2 h3 h4]

theorem c5uTrunc_step (t : String) (h2 : t.data.all isDigitCh = true) (h3 : 6 < t.length) :
    csvUnmarshalGo [t] 1 [] [] [c5uPerm] =
      ([{ c5uPerm with value := Value.vStr (Left t 6) }], none) := by
  have hvalpass : ∀ x, csvUnmarshalValidate c5uPerm "" x = ValOutcome.pass := fun _ => rfl
  unfold csvUnmarshalGo
  dsimp only []
  simp only [show ParseInt32 c5uPerm.pos = some 0 from rfl,
    show csvTagType c5uPerm = "n" from rfl,
    show sizeParts c5uPerm = ("4..6", 0) from rfl,
    show sizeMinMax "4..6" = ((4 : Int), (6 : Int)) from rfl,
    show csvTagReq c5uPerm = "" from rfl,
    show Trim c5uPerm.outPfx = "" from rfl,
    show Trim c5uPerm.timeFormat = "" from rfl,
    show Trim c5uPerm.regex = "" from rfl,
    show LenTrim "" = 0 from rfl,
    show c5uPerm.value = Value.vStr "" from rfl,
    show Value.isGoStructKind (Value.vStr "") = false from rfl,
    show ∀ x, csvNormalizeBool c5uPerm x = x from fun _ => rfl,
    show List.getD [t] (Int.toNat 0) "" = t from rfl,
    show (("n" : String) = "a") = False from by decide,
    show (("n" : String) = "b") = False from by decide,
    show (("n" : String) = "an") = False from by decide,
    show (("n" : String) = "ans") = False from by decide,
    show (("n" : String) = "regex") = False from by decide,
    show (("n" : String) = "h") = False from by decide,
    show (("n" : String) = "b64") = False from by decide,
    isFilterType, csvExtract, extractNumeric_digits h2, hvalpass]
  simp only [if_true, if_false, ite_true, ite_false, decide_False, decide_True,
    Bool.false_eq_true, and_true, true_and, and_false, false_and, or_false, false_or,
    Bool.false_or, Bool.true_or, Bool.or_false, Bool.or_true,
    lt_irrefl, extractNumeric_digits h2,
    show ((0 : Int) > ((1 : Nat) : Int) - 1) = False from by norm_num]
  rw [if_pos (show (0 : Int) < 6 ∧ (t.length : Int) > 6 from by
    refine ⟨by norm_num, ?_⟩; omega)]
  rfl

theorem c5uTrunc_call (t : String) (h1 : 0 < t.length) (h2 : t.data.all isDigitCh = true)
    (h3 : 6 < t.length) :
    UnmarshalCSVToStruct (some [c5uPerm]) t ',' =
      (some [{ c5uPerm with value := Value.vStr (Left t 6) }], none) := by
  have hlt : LenTrim t = t.length := lenTrim_digits h2
  unfold UnmarshalCSVToStruct
  dsimp only []
  rw [if_neg (by omega : ¬LenTrim t = 0)]
  rw [splitString_no_delim (comma_not_mem_digits h2)]
  show (if (1 : Nat) = 0 then _ else _) = _
  rw [if_neg (by norm_num : ¬(1 : Nat) = 0)]
  show (some (csvUnmarshalGo [t] 1 [] [] [c5uPerm]).1,
    (csvUnmarshalGo [t] 1 [] [] [c5uPerm]).2) = _
  rw [c5uTrunc_step t h2 h3]

theorem c5mMin_field (v : String) (h1 : 0 < v.length) (h2 : v.data.all isDigitCh = true)
    (h3 : v.length < 4) :
    csvMarshalField (c5mMin v) = CsvFieldOut.abort ("A" ++ " Min Length") := by
  have hvalpass : ∀ x, csvMarshalValidate (c5mMin v) "" x = none := fun _ => rfl
  unfold csvMarshalField
  dsimp only []
  simp only [show csvRender (c5mMin v) = (v, false, none) from rfl,
    show csvTagType (c5mMin v) = "n" from rfl,
    show sizeParts (c5mMin v) = ("4..6", 0) from rfl,
    show sizeMinMax "4..6" = ((4 : Int), (6 : Int)) from rfl,
    show (c5mMin v).value = Value.vStr v from rfl,
    show (c5mMin v).defVal = "" from rfl,
    show (c5mMin v).boolTrue = "" from rfl,
    show (c5mMin v).boolFalse = "" from rfl,
    show (c5mMin v).outPfx = "" from rfl,
    show (c5mMin v).name = "A" from rfl,
    show (c5mMin v).regex = "" from rfl,
    show csvTagReq (c5mMin v) = "" from rfl,
    show Trim (lowerStr (c5mMin v).rng) = "" from rfl,
    show sizeMinMax "" = ((0 : Int), (0 : Int)) from rfl,
    show Trim "" = "" from rfl,
    show ParseBool (c5mMin v).skipBlank = false from rfl,
    show ParseBool (c5mMin v).skipZero = false from rfl,
    show (("n" : String) = "a") = False from by decide,
    show (("n" : String) = "b") = False from by decide,
    show (("n" : String) = "an") = False from by decide,
    show (("n" : String) = "ans") = False from by decide,
    show (("n" : String) = "regex") = False from by decide,
    show (("n" : String) = "h") = False from by decide,
    show (("n" : String) = "b64") = False from by decide,
    show (("" : String) = "true") = False from by decide,
    show (("" : String) = " ") = False from by decide,
    show (("" : String).length = 0) from rfl,
    Value.isIntKind, Value.intVal, isFilterType, csvExtract,
    extractNumeric_digits h2, hvalpass, groupKey, inTrueList]
  simp only [if_true, if_false, ite_true, ite_false, decide_False, decide_True,
    Bool.false_eq_true, Bool.or_self, Bool.or_true, Bool.true_or, Bool.false_or,
    Bool.or_false, and_true, true_and, and_false, false_and, or_false, false_or,
    show ("" : String).length = 0 from rfl, lt_irrefl, not_false_iff,
    extractNumeric_digits h2]
  rw [if_pos ⟨by norm_num, h1, by exact_mod_cast h3⟩]

theorem c5mRange_fieldMin (v : String) (k : Int) (h1 : 0 < v.length)
    (h2 : v.data.all isDigitCh = true) (hp : ParseInt32 v = some k)
    (hk0 : 0 < k) (hk : k < 10) :
    csvMarshalField (c5mRange v) = CsvFieldOut.abort ("A" ++ " Range Minimum") := by
  have hvalpass : ∀ x, csvMarshalValidate (c5mRange v) "" x = none := fun _ => rfl
  unfold csvMarshalField
  dsimp only []
  simp only [show csvRender (c5mRange v) = (v, false, none) from rfl,
    show csvTagType (c5mRange v) = "n" from rfl,
    show sizeParts (c5mRange v) = ("", 0) from rfl,
    show sizeMinMax "" = ((0 : Int), (0 : Int)) from rfl,
    show (c5mRange v).value = Value.vStr v from rfl,
    show (c5mRange v).defVal = "" from rfl,
    show (c5mRange v).boolTrue = "" from rfl,
    show (c5mRange v).boolFalse = "" from rfl,
    show (c5mRange v).outPfx = "" from rfl,
    show (c5mRange v).name = "A" from rfl,
    show (c5mRange v).regex = "" from rfl,
    show csvTagReq (c5mRange v) = "" from rfl,
    show Trim (lowerStr (c5mRange v).rng) = "10..20" from rfl,
    show sizeMinMax "10..20" = ((10 : Int), (20 : Int)) from rfl,
    show Trim "" = "" from rfl,
    show ParseBool (c5mRange v).skipBlank = false from rfl,
    show ParseBool (c5mRange v).skipZero = false from rfl,
    show (("n" : String) = "a") = False from by decide,
    show (("n" : String) = "b") = False from by decide,
    show (("n" : String) = "an") = False from by decide,
    show (("n" : String) = "ans") = False from by decide,
    show (("n" : String) = "regex") = False from by decide,
    show (("n" : String) = "h") = False from by decide,
    show (("n" : String) = "b64") = False from by decide,
    show (("" : String) = "true") = False from by decide,
    show (("" : String) = " ") = False from by decide,
    Value.isIntKind, Value.intVal, isFilterType, csvExtract,
    extractNumeric_digits h2, hvalpass, groupKey, inTrueList]
  simp only [if_true, if_false, ite_true, ite_false, decide_False, decide_True,
    Bool.false_eq_true, Bool.or_self, Bool.or_true, Bool.true_or, Bool.false_or,
    Bool.or_false, and_true, true_and, and_false, false_and, or_false, false_or,
    show ("" : String).length = 0 from rfl, lt_irrefl, not_false_iff,
    extractNumeric_digits h2, hp]
  rw [if_pos (show (0 : Int) < 10 ∧ k < 10 ∧ ¬(k = 0 ∧ ¬("" : String) = "true") from
    ⟨by norm_num, hk, fun ⟨hz, _⟩ => by omega⟩)]

theorem c5mRange_fieldMax (v : String) (k : Int) (h1 : 0 < v.length)
    (h2 : v.data.all isDigitCh = true) (hp : ParseInt32 v = some k) (hk : 20 < k) :
    csvMarshalField (c5mRange v) = CsvFieldOut.abort ("A" ++ " Range Maximum") := by
  have hvalpass : ∀ x, csvMarshalValidate (c5mRange v) "" x = none := fun _ => rfl
  unfold csvMarshalField
  dsimp only []
  simp only [show csvRender (c5mRange v) = (v, false, none) from rfl,
    show csvTagType (c5mRange v) = "n" from rfl,
    show sizeParts (c5mRange v) = ("", 0) from rfl,
    show sizeMinMax "" = ((0 : Int), (0 : Int)) from rfl,
    show (c5mRange v).value = Value.vStr v from rfl,
    show (c5mRange v).defVal = "" from rfl,
    show (c5mRange v).boolTrue = "" from rfl,
    show (c5mRange v).boolFalse = "" from rfl,
    show (c5mRange v).outPfx = "" from rfl,
    show (c5mRange v).name = "A" from rfl,
    show (c5mRange v).regex = "" from rfl,
    show csvTagReq (c5mRange v) = "" from rfl,
    show Trim (lowerStr (c5mRange v).rng) = "10..20" from rfl,
    show sizeMinMax "10..20" = ((10 : Int), (20 : Int)) from rfl,
    show Trim "" = "" from rfl,
    show ParseBool (c5mRange v).skipBlank = false from rfl,
    show ParseBool (c5mRange v).skipZero = false from rfl,
    show (("n" : String) = "a") = False from by decide,
    show (("n" : String) = "b") = False from by decide,
    show (("n" : String) = "an") = False from by decide,
    show (("n" : String) = "ans") = False from by decide,
    show (("n" : String) = "regex") = False from by decide,
    show (("n" : String) = "h") = False from by decide,
    show (("n" : String) = "b64") = False from by decide,
    show (("" : String) = "true") = False from by decide,
    show (("" : String) = " ") = False from by decide,
    Value.isIntKind, Value.intVal, isFilterType, csvExtract,
    extractNumeric_digits h2, hvalpass, groupKey, inTrueList]
  simp only [if_true, if_false, ite_true, ite_false, decide_False, decide_True,
    Bool.false_eq_true, Bool.or_self, Bool.or_true, Bool.true_or, Bool.false_or,
    Bool.or_false, and_true, true_and, and_false, false_and, or_false, false_or,
    show ("" : String).length = 0 from rfl, lt_irrefl, not_false_iff,
    extractNumeric_digits h2, hp]
  rw [if_neg (show ¬((0 : Int) < 10 ∧ k < 10 ∧ ¬(k = 0 ∧ ¬("" : String) = "true")) from by
    rintro ⟨-, hlt, -⟩; omega)]
  rw [if_pos (show (0 : Int) < 20 ∧ (20 : Int) < k from ⟨by norm_num, hk⟩)]

theorem csvMarshalWalk_single_abort (f : StructField) (e : String)
    (hpos : ParseInt32 f.pos = some 0) (hg : groupKey f = none)
    (hf : csvMarshalField f = CsvFieldOut.abort e) :
    csvMarshalWalk [f] [] [notSetMark] = ([notSetMark], some e) := by
  unfold csvMarshalWalk
  simp only [hpos, hg, hf]
  rw [if_neg (by norm_num : ¬(0 : Int) < 0)]
  rw [if_neg (show ¬(0 : Int) > (([notSetMark] : List String).length : Int) - 1 from by
    norm_num)]

theorem isSet_single_vStr {f : StructField} {v : String} (hv : f.value = Value.vStr v)
    (hd : f.defVal = "") (h1 : 0 < v.length) (h2 : v.data.all isDigitCh = true) :
    IsStructFieldSet (some [f]) = true := by
  show [f].any fieldIsSetCheck = true
  have hch : fieldIsSetCheck f = true := by
    unfold fieldIsSetCheck
    rw [hv]
    dsimp only []
    rw [lenTrim_digits h2, if_pos h1, hd]
    simp [length_pos_ne_empty h1]
  simp [List.any, hch]

theorem marshalCSV_single_abort (f : StructField) (e : String)
    (hset : IsStructFieldSet (some [f]) = true)
    (hpos : ParseInt32 f.pos = some 0) (hg : groupKey f = none)
    (hf : csvMarshalField f = CsvFieldOut.abort e) :
    MarshalStructToCSV (some [f]) "," = ("", some e) := by
  unfold MarshalStructToCSV
  dsimp only []
  rw [if_neg (by rw [hset]; rintro ⟨hc, -⟩; exact absurd hc (by simp))]
  have hw := csvMarshalWalk_single_abort f e hpos hg hf
  rw [show List.replicate ([f] : Record).length notSetMark = [notSetMark] from rfl]
  rw [hw]

/-- **C5.** Asymmetric enforcement for numeric-kind fields.  Unmarshal
(`UnmarshalCSVToStruct`): (1) a digit token shorter than the declared minimum
size 4 and below the declared range minimum 10 is accepted unchanged with no
error (minimum size and numeric range are never enforced); (2) a violated
`+%` modulo constraint is an error; (3) a token longer than the maximum size
is truncated, not rejected.  Marshal (`MarshalStructToCSV`): (4) a value
below the minimum size errors, (5)/(6) values below/above the declared
numeric range error. -/
theorem c5_asymmetry :
    (∀ t : String, 0 < t.length → t.data.all isDigitCh = true → t.length ≤ 6 →
      UnmarshalCSVToStruct (some [c5uPerm]) t ',' =
        (some [{ c5uPerm with value := Value.vStr t }], none)) ∧
    (∀ t : String, 0 < t.length → t.data.all isDigitCh = true → t.length ≤ 5 →
      t.length % 2 = 1 →
      UnmarshalCSVToStruct (some [c5uMod]) t ',' =
        (some [c5uMod], some ("Struct Field " ++ "A" ++ " Expects Value In Blocks"))) ∧
    (∀ t : String, 0 < t.length → t.data.all isDigitCh = true → 6 < t.length →
      UnmarshalCSVToStruct (some [c5uPerm]) t ',' =
        (some [{ c5uPerm with value := Value.vStr (Left t 6) }], none)) ∧
    (∀ v : String, 0 < v.length → v.data.all isDigitCh = true → v.length < 4 →
      MarshalStructToCSV (some [c5mMin v]) "," = ("", some ("A" ++ " Min Length"))) ∧
    (∀ (v : String) (k : Int), 0 < v.length → v.data.all isDigitCh = true →
      ParseInt32 v = some k → 0 < k → k < 10 →
      MarshalStructToCSV (some [c5mRange v]) "," = ("", some ("A" ++ " Range Minimum"))) ∧
    (∀ (v : String) (k : Int), 0 < v.length → v.data.all isDigitCh = true →
      ParseInt32 v = some k → 20 < k →
      MarshalStructToCSV (some [c5mRange v]) "," = ("", some ("A" ++ " Range Maximum"))) := by
  refine ⟨?_, ?_, ?_, ?_, ?_, ?_⟩
  · intro t h1 h2 h3
    exact c5uPerm_call t h1 h2 h3
  · intro t h1 h2 h3 h4
    exact c5uMod_call t h1 h2 h3 h4
  · intro t h1 h2 h3
    exact c5uTrunc_call t h1 h2 h3
  · intro v h1 h2 h3
    exact marshalCSV_single_abort _ _ (isSet_single_vStr rfl rfl h1 h2) rfl rfl
      (c5mMin_field v h1 h2 h3)
  · intro v k h1 h2 hp hk0 hk
    exact marshalCSV_single_abort _ _ (isSet_single_vStr rfl rfl h1 h2) rfl rfl
      (c5mRange_fieldMin v k h1 h2 hp hk0 hk)
  · intro v k h1 h2 hp hk
    exact marshalCSV_single_abort _ _ (isSet_single_vStr rfl rfl h1 h2) rfl rfl
      (c5mRange_fieldMax v k h1 h2 hp hk)

theorem c5_asymmetry_witness :
    UnmarshalCSVToStruct (some [c5uPerm]) "5" ',' =
      (some [{ c5uPerm with value := Value.vStr "5" }], none) ∧
    UnmarshalCSVToStruct (some [c5uMod]) "123" ',' =
      (some [c5uMod], some ("Struct Field " ++ "A" ++ " Expects Value In Blocks")) ∧
    UnmarshalCSVToStruct (some [c5uPerm]) "1234567" ',' =
      (some [{ c5uPerm with value := Value.vStr (Left "1234567" 6) }], none) ∧
    MarshalStructToCSV (some [c5mMin "12"]) "," = ("", some ("A" ++ " Min Length")) ∧
    MarshalStructToCSV (some [c5mRange "5"]) "," = ("", some ("A" ++ " Range Minimum")) ∧
    MarshalStructToCSV (some [c5mRange "25"]) "," = ("", some ("A" ++ " Range Maximum")) :=
  ⟨c5_asymmetry.1 "5" (by decide) (by decide) (by decide),
   c5_asymmetry.2.1 "123" (by decide) (by decide) (by decide) (by decide),
   c5_asymmetry.2.2.1 "1234567" (by decide) (by decide) (by decide),
   c5_asymmetry.2.2.2.1 "12" (by decide) (by decide) (by decide),
   c5_asymmetry.2.2.2.2.1 "5" 5 (by decide) (by decide) (by rfl) (by decide) (by decide),
   c5_asymmetry.2.2.2.2.2 "25" 25 (by decide) (by decide) (by rfl) (by decide)⟩

/-- **C6 counterexample.** A two-position record whose payload splits into a
single token: the claim says such a call returns no error, but the in-range
first field's modulo constraint fails and the call returns an error. -/
theorem c6_truncation_counterexample :
    (SplitString "123" ',').length = 1 ∧
    UnmarshalCSVToStruct (some [c5uMod, c6FieldB]) "123" ',' =
      (some [c5uMod, c6FieldB],
        some ("Struct Field " ++ "A" ++ " Expects Value In Blocks")) := by
  exact ⟨rfl, rfl⟩

theorem sizeParts_empty {f : StructField} (h : f.size = "") : sizeParts f = ("", 0) := by
  unfold sizeParts
  rw [h]
  rfl

theorem csvUnmarshalValidate_blank {f : StructField} (h : Trim f.validate = "")
    (q x : String) : csvUnmarshalValidate f q x = ValOutcome.pass := by
  unfold csvUnmarshalValidate
  rw [h]
  rfl

theorem splitChar_ne_nil (d : Char) : ∀ (cs : List Char), splitChar d cs ≠ [] := by
  intro cs
  cases cs with
  | nil => simp [splitChar]
  | cons c rest =>
    simp only [splitChar]
    cases splitChar d rest with
    | nil => simp
    | cons t ts =>
      by_cases hc : c = d
      · simp [hc]
      · simp [hc]

theorem splitString_length_pos (payload : String) (d : Char) :
    0 < (SplitString payload d).length := by
  unfold SplitString
  rw [List.length_map]
  exact List.length_pos.mpr (splitChar_ne_nil d payload.data)

theorem csvUnmarshalGo_plain (elements : List String) (csvLen : Nat) :
    ∀ (fields : List StructField) (pmap : List String) (acc : List StructField),
      (∀ f ∈ fields, plainCsvField f) →
      ∃ out, csvUnmarshalGo elements csvLen pmap acc fields = (acc.reverse ++ out, none) ∧
        List.Forall₂ (fun f g =>
          ∀ p : Int, ParseInt32 f.pos = some p → 0 ≤ p → (csvLen : Int) - 1 < p → g = f)
          fields out := by
  intro fields
  induction fields with
  | nil =>
    intro pmap acc _
    exact ⟨[], by simp [csvUnmarshalGo], List.Forall₂.nil⟩
  | cons f rest ih =>
    intro pmap acc hplain
    have hf := hplain f (List.mem_cons_self _ _)
    obtain ⟨⟨s, hv⟩, hsz, hvd, hpfx⟩ := hf
    have hrest : ∀ g ∈ rest, plainCsvField g := fun g hg => hplain g (List.mem_cons_of_mem _ hg)
    simp only [csvUnmarshalGo]
    cases hpos : ParseInt32 f.pos with
    | none =>
      dsimp only []
      obtain ⟨out2, hgo, hrel⟩ := ih pmap (f :: acc) hrest
      refine ⟨f :: out2, ?_, ?_⟩
      · rw [hgo, List.reverse_cons, List.append_assoc]
        rfl
      · exact List.Forall₂.cons (fun p hp => absurd hp (by rw [hpos]; simp)) hrel
    | some p =>
      dsimp only []
      by_cases hneg : p < 0
      · rw [if_pos hneg]
        obtain ⟨out2, hgo, hrel⟩ := ih pmap (f :: acc) hrest
        refine ⟨f :: out2, ?_, ?_⟩
        · rw [hgo, List.reverse_cons, List.append_assoc]
          rfl
        · exact List.Forall₂.cons (fun q hq h0 _ => rfl) hrel
      · rw [if_neg hneg]
        rw [hpfx]
        rw [if_pos (show LenTrim "" = 0 from rfl)]
        by_cases hout : p > (csvLen : Int) - 1
        · rw [if_pos hout]
          refine ⟨f :: rest, rfl, ?_⟩
          refine List.Forall₂.cons (fun q hq _ _ => rfl) ?_
          exact List.forall₂_same.mpr (fun g _ => fun q hq h0 hgt => rfl)
        · rw [if_neg hout]
          rw [hv]
          rw [if_pos (show (Value.vStr s).isGoStructKind = false from rfl)]
          rw [sizeParts_empty hsz]
          simp only [show sizeMinMax "" = ((0 : Int), (0 : Int)) from rfl,
            lt_self_iff_false, false_and, and_false, if_false, ite_false,
            csvUnmarshalValidate_blank hvd]
          dsimp only [ReflectStringToField]
          obtain ⟨out2, hgo, hrel⟩ := ih pmap
            ({ f with value := Value.vStr (csvExtract (csvTagType f) (Trim f.regex)
              (csvNormalizeBool f (elements.getD p.toNat ""))) } :: acc) hrest
          refine ⟨{ f with value := Value.vStr (csvExtract (csvTagType f) (Trim f.regex)
              (csvNormalizeBool f (elements.getD p.toNat ""))) } :: out2, ?_, ?_⟩
          · rw [hgo, List.reverse_cons, List.append_assoc]
            rfl
          · refine List.Forall₂.cons (fun q hq h0 hgt => ?_) hrel
            rw [hpos] at hq
            cases hq
            exact absurd hgt hout

theorem applyFieldDefault_keeps (f : StructField) :
    (applyFieldDefault f).size = f.size ∧ (applyFieldDefault f).validate = f.validate ∧
    (applyFieldDefault f).outPfx = f.outPfx ∧ (applyFieldDefault f).pos = f.pos := by
  unfold applyFieldDefault
  repeat' split
  all_goals exact ⟨rfl, rfl, rfl, rfl⟩

theorem applyFieldDefault_vStr {f : StructField} {s : String} (h : f.value = Value.vStr s) :
    ∃ s2, (applyFieldDefault f).value = Value.vStr s2 := by
  unfold applyFieldDefault
  by_cases hd : f.defVal.length = 0
  · rw [if_pos hd, h]
    exact ⟨s, rfl⟩
  · rw [if_neg hd, h]
    dsimp only []
    by_cases hl : LenTrim s = 0
    · rw [if_pos hl]
      exact ⟨f.defVal, rfl⟩
    · rw [if_neg hl]
      exact ⟨s, h⟩

/-- **C6 (amended).** For records of plain ordinal fields (string kind, no
size rule, no validation, no output prefix) the call returns no error, and
every field whose ordinal position is beyond the available token count keeps
its post-default value (the walk stops at the first such field, so
later-declared fields also keep their post-default values); a validation or
conversion failure on an in-range field, however, still makes the call
error even when the payload has fewer tokens than declared positions. -/
theorem c6_ordinal_truncation_amended (rcd : Record) (payload : String) (d : Char)
    (hplain : ∀ f ∈ rcd, plainCsvField f) (hpay : 0 < LenTrim payload) :
    ∃ out, UnmarshalCSVToStruct (some rcd) payload d = (some out, none) ∧
      List.Forall₂ (fun f g =>
        ∀ p : Int, ParseInt32 f.pos = some p → 0 ≤ p →
          ((SplitString payload d).length : Int) - 1 < p →
          g = applyFieldDefault { f with value := clearValue f.value }) rcd out := by
  unfold UnmarshalCSVToStruct
  dsimp only []
  rw [if_neg (by omega : ¬LenTrim payload = 0)]
  rw [if_neg (Nat.pos_iff_ne_zero.mp (splitString_length_pos payload d))]
  have hmap : applyDefaults (StructClearFields rcd) =
      rcd.map (fun f => applyFieldDefault { f with value := clearValue f.value }) := by
    unfold applyDefaults StructClearFields
    rw [List.map_map]
    rfl
  rw [hmap]
  have hplain2 : ∀ g ∈ rcd.map (fun f => applyFieldDefault { f with value := clearValue f.value }),
      plainCsvField g := by
    intro g hg
    obtain ⟨f, hf, rfl⟩ := List.mem_map.mp hg
    obtain ⟨⟨s, hv⟩, hsz, hvd, hpfx⟩ := hplain f hf
    obtain ⟨hk1, hk2, hk3, hk4⟩ := applyFieldDefault_keeps { f with value := clearValue f.value }
    have hvs : ∃ s2, (applyFieldDefault { f with value := clearValue f.value }).value =
        Value.vStr s2 := by
      apply applyFieldDefault_vStr (s := "")
      show clearValue f.value = Value.vStr ""
      rw [hv]
      rfl
    exact ⟨hvs, by rw [hk1]; exact hsz, by rw [hk2]; exact hvd, by rw [hk3]; exact hpfx⟩
  obtain ⟨out, hgo, hrel⟩ := csvUnmarshalGo_plain (SplitString payload d)
    (SplitString payload d).length
    (rcd.map (fun f => applyFieldDefault { f with value := clearValue f.value })) [] [] hplain2
  refine ⟨out, ?_, ?_⟩
  · rw [hgo]
    rfl
  · rw [List.forall₂_map_left_iff] at hrel
    refine List.Forall₂.imp ?_ hrel
    intro f g hfg p hp h0 hgt
    obtain ⟨-, -, -, hk4⟩ := applyFieldDefault_keeps { f with value := clearValue f.value }
    exact hfg p (by rw [hk4]; exact hp) h0 hgt

theorem c6_ordinal_truncation_amended_witness :
    ∃ out, UnmarshalCSVToStruct (some [c6wA, c6wB]) "x" ',' = (some out, none) ∧
      List.Forall₂ (fun f g =>
        ∀ p : Int, ParseInt32 f.pos = some p → 0 ≤ p →
          ((SplitString "x" ',').length : Int) - 1 < p →
          g = applyFieldDefault { f with value := clearValue f.value }) [c6wA, c6wB] out :=
  c6_ordinal_truncation_amended [c6wA, c6wB] "x" ','
    (by
      intro f hf
      simp only [List.mem_cons, List.not_mem_nil, or_false] at hf
      rcases hf with rfl | rfl
      · exact ⟨⟨"", rfl⟩, rfl, rfl, rfl⟩
      · exact ⟨⟨"", rfl⟩, rfl, rfl, rfl⟩)
    (by decide)

/- ## C3: the JSON round trip -/

/-- Escaping adds a backslash only before quotes and apostrophes; text free
of both is unchanged. -/
theorem escQuotes_id : ∀ {l : List Char}, dquote ∉ l → squote ∉ l → escQuotes l = l := by
  intro l
  induction l with
  | nil => intro _ _; rfl
  | cons c rest ih =>
    intro hq ha
    have hcq : ¬c = dquote := fun h => hq (h ▸ List.mem_cons_self _ _)
    have hca : ¬c = squote := fun h => ha (h ▸ List.mem_cons_self _ _)
    simp only [escQuotes]
    rw [if_neg (by rintro (h | h); exacts [hcq h, hca h])]
    rw [ih (fun h => hq (List.mem_cons_of_mem _ h)) (fun h => ha (List.mem_cons_of_mem _ h))]

/-- Unescaping undoes quote escaping on backslash-free source text. -/
theorem unesc_esc : ∀ {l : List Char}, bslash ∉ l → unescChars (escQuotes l) = l := by
  intro l
  induction l with
  | nil => intro _; rfl
  | cons c rest ih =>
    intro hb
    have hcb : ¬c = bslash := fun h => hb (h ▸ List.mem_cons_self _ _)
    have hrest : bslash ∉ rest := fun h => hb (List.mem_cons_of_mem _ h)
    simp only [escQuotes]
    by_cases hc : c = dquote ∨ c = squote
    · rw [if_pos hc]
      cases hesc : escQuotes rest with
      | nil =>
        show unescChars [bslash, c] = c :: rest
        have : rest = [] := by
          cases rest with
          | nil => rfl
          | cons d tail =>
            exfalso
            simp only [escQuotes] at hesc
            by_cases hd : d = dquote ∨ d = squote
            · rw [if_pos hd] at hesc; exact List.noConfusion hesc
            · rw [if_neg hd] at hesc; exact List.noConfusion hesc
        subst this
        simp only [unescChars]
        rw [if_pos ⟨trivial, hc⟩]
      | cons d tail =>
        show unescChars (bslash :: c :: d :: tail) = c :: rest
        simp only [unescChars]
        rw [if_pos ⟨trivial, hc⟩]
        rw [← hesc, ih hrest]
    · rw [if_neg hc]
      push_neg at hc
      cases hesc : escQuotes rest with
      | nil =>
        have : rest = [] := by
          cases rest with
          | nil => rfl
          | cons d tail =>
            exfalso
            simp only [escQuotes] at hesc
            by_cases hd : d = dquote ∨ d = squote
            · rw [if_pos hd] at hesc; exact List.noConfusion hesc
            · rw [if_neg hd] at hesc; exact List.noConfusion hesc
        subst this
        rfl
      | cons d tail =>
        show unescChars (c :: d :: tail) = c :: rest
        simp only [unescChars]
        rw [if_neg (by rintro ⟨h1, -⟩; exact hcb h1)]
        rw [← hesc, ih hrest]

theorem scanSafe_clean : ∀ {l : List Char}, dquote ∉ l → bslash ∉ l → ScanSafe l := by
  intro l
  induction l with
  | nil => intro _ _; exact ScanSafe.nil
  | cons c rest ih =>
    intro hq hb
    exact ScanSafe.chr c rest (fun h => hq (h ▸ List.mem_cons_self _ _))
      (fun h => hb (h ▸ List.mem_cons_self _ _))
      (ih (fun h => hq (List.mem_cons_of_mem _ h)) (fun h => hb (List.mem_cons_of_mem _ h)))

theorem scanSafe_escQuotes : ∀ {l : List Char}, bslash ∉ l → ScanSafe (escQuotes l) := by
  intro l
  induction l with
  | nil => intro _; exact ScanSafe.nil
  | cons c rest ih =>
    intro hb
    have hcb : ¬c = bslash := fun h => hb (h ▸ List.mem_cons_self _ _)
    have hrest : bslash ∉ rest := fun h => hb (List.mem_cons_of_mem _ h)
    simp only [escQuotes]
    by_cases hc : c = dquote ∨ c = squote
    · rw [if_pos hc]
      exact ScanSafe.esc c _ (ih hrest)
    · rw [if_neg hc]
      push_neg at hc
      exact ScanSafe.chr c _ hc.1 hcb (ih hrest)

/-- The scanner returns exactly the scan-safe content before the closing
quote, and the remainder after it. -/
theorem scanStr_append {content : List Char} (h : ScanSafe content) :
    ∀ rest, scanStr (content ++ dquote :: rest) = some (content, rest) := by
  induction h with
  | nil =>
    intro rest
    cases rest with
    | nil => rfl
    | cons d tail =>
      show scanStr (dquote :: d :: tail) = _
      simp only [scanStr]
      rw [if_pos trivial]
  | esc c cs hcs ih =>
    intro rest
    show scanStr (bslash :: c :: (cs ++ dquote :: rest)) = _
    simp only [scanStr]
    rw [if_pos trivial, ih rest]
    rfl
  | chr c cs hq hb hcs ih =>
    intro rest
    show scanStr (c :: (cs ++ dquote :: rest)) = _
    cases hcc : cs ++ dquote :: rest with
    | nil => exact absurd hcc (by simp)
    | cons d tail =>
      simp only [scanStr]
      rw [if_neg hq, if_neg hb, ← hcc, ih rest]
      rfl

/-- The pair loop parses back exactly what the pair printer emitted, for any
sufficient fuel, provided keys are quote/backslash-free and values are
scan-safe. -/
theorem parsePairs_print :
    ∀ (pairs : List (String × String)) (fuel : Nat),
      pairs ≠ [] → pairs.length ≤ fuel →
      (∀ p ∈ pairs, dquote ∉ p.1.data ∧ bslash ∉ p.1.data ∧ ScanSafe p.2.data) →
      parsePairsLoop fuel (printPairsSep pairs ++ [rbrace]) = some pairs := by
  intro pairs
  induction pairs with
  | nil => intro fuel h; exact absurd rfl h
  | cons p ps ih =>
    intro fuel _ hfuel hwf
    obtain ⟨fuel, rfl⟩ : ∃ k, fuel = k + 1 := by
      cases fuel with
      | zero => exact absurd hfuel (by simp)
      | succ k => exact ⟨k, rfl⟩
    obtain ⟨hk1, hk2, hv⟩ := hwf p (List.mem_cons_self _ _)
    cases ps with
    | nil =>
      have hshape : printPairsSep [p] ++ [rbrace] =
          dquote :: (p.1.data ++ dquote :: (':' :: dquote ::
            (p.2.data ++ dquote :: [rbrace]))) := by
        simp [printPairsSep, pairChunk]
      rw [hshape]
      simp only [parsePairsLoop]
      rw [if_pos trivial, scanStr_append (scanSafe_clean hk1 hk2)]
      simp only [scanStr_append hv, string_eta]
      rfl
    | cons q rest =>
      have hshape : printPairsSep (p :: q :: rest) ++ [rbrace] =
          dquote :: (p.1.data ++ dquote :: (':' :: dquote ::
            (p.2.data ++ dquote :: (',' :: ' ' ::
              (printPairsSep (q :: rest) ++ [rbrace]))))) := by
        simp [printPairsSep, pairChunk]
      rw [hshape]
      simp only [parsePairsLoop]
      rw [if_pos trivial, scanStr_append (scanSafe_clean hk1 hk2)]
      simp only [scanStr_append hv, string_eta,
        ih fuel (by simp) (by simpa using Nat.le_of_succ_le_succ hfuel)
          (fun r hr => hwf r (List.mem_cons_of_mem _ hr))]
      rfl

/-- Every character the integer renderer emits is a digit or the minus
sign. -/
theorem int64ToString_mem (i : Int) :
    ∀ c ∈ (Int64ToString i).data, isDigitCh c = true ∨ c = '-' := by
  intro c hc
  unfold Int64ToString at hc
  by_cases h : i < 0
  · rw [if_pos h] at hc
    rcases List.mem_cons.mp hc with h1 | h1
    · exact Or.inr h1
    · exact Or.inl (List.all_eq_true.mp (natToString_all_digits _) c h1)
  · rw [if_neg h] at hc
    exact Or.inl (List.all_eq_true.mp (natToString_all_digits _) c hc)

theorem int64_no_dquote (i : Int) : dquote ∉ (Int64ToString i).data := by
  intro h
  rcases int64ToString_mem i dquote h with h1 | h1
  · exact absurd h1 (by decide)
  · exact absurd h1 (by decide)

theorem int64_no_bslash (i : Int) : bslash ∉ (Int64ToString i).data := by
  intro h
  rcases int64ToString_mem i bslash h with h1 | h1
  · exact absurd h1 (by decide)
  · exact absurd h1 (by decide)

theorem int64_data_ne_nil (i : Int) : (Int64ToString i).data ≠ [] := by
  unfold Int64ToString
  by_cases h : i < 0
  · rw [if_pos h]
    simp
  · rw [if_neg h]
    exact natToString_ne_nil i.natAbs

theorem toLower_small {c : Char} (h : c.toNat < 65) : c.toLower = c := by
  show Char.toLower c = c
  unfold Char.toLower
  rw [if_neg]
  intro hcon
  omega

/-- Integer renderings never lower-case to the "unknown" enum sentinel. -/
theorem lower_int64_ne_unknown (i : Int) : lowerStr (Int64ToString i) ≠ "unknown" := by
  intro h
  have hd : (Int64ToString i).data.map Char.toLower = "unknown".data :=
    congrArg String.data h
  obtain ⟨c, rest, hc⟩ : ∃ c rest, (Int64ToString i).data = c :: rest := by
    cases hx : (Int64ToString i).data with
    | nil => exact absurd hx (int64_data_ne_nil i)
    | cons c rest => exact ⟨c, rest, rfl⟩
  rw [hc] at hd
  have hhead : c.toLower = 'u' := by
    have := congrArg List.head? hd
    simpa using this
  have hsm : c.toNat < 65 := by
    rcases int64ToString_mem i c (hc ▸ List.mem_cons_self _ _) with h1 | h1
    · simp [isDigitCh] at h1
      omega
    · subst h1; decide
  rw [toLower_small hsm] at hhead
  subst hhead
  exact absurd hsm (by decide)

theorem lenTrim_le_length (s : String) : LenTrim s ≤ s.length := by
  unfold LenTrim Trim trimChars
  show (String.mk ((List.dropWhile isWhiteCh
    (List.dropWhile isWhiteCh s.data).reverse).reverse)).length ≤ s.length
  show ((List.dropWhile isWhiteCh
    (List.dropWhile isWhiteCh s.data).reverse).reverse).length ≤ s.length
  calc ((List.dropWhile isWhiteCh (List.dropWhile isWhiteCh s.data).reverse).reverse).length
      = (List.dropWhile isWhiteCh (List.dropWhile isWhiteCh s.data).reverse).length :=
        List.length_reverse _
    _ ≤ (List.dropWhile isWhiteCh s.data).reverse.length := (List.dropWhile_suffix _).length_le
    _ = (List.dropWhile isWhiteCh s.data).length := List.length_reverse _
    _ ≤ s.data.length := (List.dropWhile_suffix _).length_le
    _ = s.length := rfl

theorem lenTrim_pos_ne_empty {s : String} (h : 0 < LenTrim s) : s ≠ "" := by
  intro hcon
  rw [hcon] at h
  exact absurd h (by decide)

/-- **C3 counterexample.** Marshaling a record whose two fields share a
`uniqueid` group succeeds with no error, but emits only the first field;
unmarshaling the output leaves the second field cleared, so the round trip
does not restore the original record. -/
theorem c3_roundtrip_counterexample :
    (MarshalStructToJson (some [c3fA, c3fB]) true false).2 = none ∧
    UnmarshalJsonToStruct (some [c3fA, c3fB])
        (MarshalStructToJson (some [c3fA, c3fB]) true false).1 true false =
      (some [c3fA, c3fB0], none) ∧
    c3fB0 ≠ c3fB :=
  ⟨rfl, rfl, by decide⟩

theorem applyFieldDefault_shape (f : StructField) :
    ∃ v, applyFieldDefault f = { f with value := v } := by
  unfold applyFieldDefault
  repeat' split
  all_goals exact ⟨_, rfl⟩

theorem clearDefault_shape (f : StructField) :
    ∃ v, clearDefault f = { f with value := v } := by
  unfold clearDefault
  obtain ⟨v, hv⟩ := applyFieldDefault_shape { f with value := clearValue f.value }
  exact ⟨v, hv⟩

theorem eligible_of {f : StructField} (heff : effTag f ≠ "-") :
    eligible false f = true := by
  unfold eligible
  simp [heff]

theorem fromEsc {x : String} (h : bslash ∉ x.data) :
    JsonFromEscaped ⟨escQuotes x.data⟩ = x := by
  unfold JsonFromEscaped
  show (⟨unescChars (escQuotes x.data)⟩ : String) = x
  rw [unesc_esc h, string_eta]

theorem normalize_id {f : StructField} (hbt : LenTrim f.boolTrue = 0)
    (hbf : LenTrim f.boolFalse = 0) (hout : f.outPfx = "") (v : String) :
    jsonNormalizeBool f v = v := by
  unfold jsonNormalizeBool
  rw [hout]
  rw [if_neg (by rintro ⟨-, h2, -⟩; exact absurd h2 (by decide))]
  rw [if_neg (by rintro ⟨h1, -, -⟩; rw [hbt] at h1; exact absurd h1 (by decide))]
  rw [if_neg (by rintro ⟨h1, -, -⟩; rw [hbf] at h1; exact absurd h1 (by decide))]

theorem jsonWalk_groups_none :
    ∀ (l : List StructField) (claimed : List String) (pairs : List (String × String)),
      (∀ f ∈ l, groupKey f = none ∧ eligible false f = true) →
      jsonWalk false l claimed pairs =
        (pairs ++ l.filterMap (fun f => (jsonProduceBuf f).map (fun b => (effTag f, b))),
          claimed) := by
  intro l
  induction l with
  | nil =>
    intro claimed pairs _
    simp [jsonWalk]
  | cons f rest ih =>
    intro claimed pairs hall
    obtain ⟨hgk, hel⟩ := hall f (List.mem_cons_self _ _)
    have hrest := fun g hg => hall g (List.mem_cons_of_mem _ hg)
    show jsonWalk false (f :: rest) claimed pairs = _
    simp only [jsonWalk]
    rw [if_pos hel, hgk]
    dsimp only []
    cases hpb : jsonProduceBuf f with
    | none =>
      dsimp only []
      rw [ih claimed pairs hrest]
      simp [List.filterMap_cons, hpb]
    | some b =>
      dsimp only []
      rw [ih claimed (pairs ++ [(effTag f, b)]) hrest]
      simp [List.filterMap_cons, hpb]

theorem lookup_absent (t : String) :
    ∀ (l : List StructField), t ∉ l.map effTag →
      (l.filterMap (fun g => (c3EmitVal g).map (fun b => (effTag g, b)))).lookup t = none := by
  intro l
  induction l with
  | nil => intro _; rfl
  | cons g rest ih =>
    intro hmem
    have hg : t ≠ effTag g := fun h => hmem (by rw [List.map_cons]; exact h ▸ List.mem_cons_self _ _)
    have hrest : t ∉ rest.map effTag := fun h => hmem (by rw [List.map_cons]; exact List.mem_cons_of_mem _ h)
    rw [List.filterMap_cons]
    cases hc : (c3EmitVal g).map (fun b => (effTag g, b)) with
    | none =>
      dsimp only []
      exact ih hrest
    | some p =>
      dsimp only []
      obtain ⟨b, hb, rfl⟩ := Option.map_eq_some'.mp hc
      have hbeq : (t == effTag g) = false := by
        simp [beq_iff_eq]
        exact hg
      simp only [List.lookup, hbeq]
      exact ih hrest

theorem lookup_emit :
    ∀ (l : List StructField), (l.map effTag).Nodup →
      ∀ f ∈ l,
        (l.filterMap (fun g => (c3EmitVal g).map (fun b => (effTag g, b)))).lookup (effTag f) =
          c3EmitVal f := by
  intro l
  induction l with
  | nil => intro _ f hf; exact absurd hf (List.not_mem_nil f)
  | cons g rest ih =>
    intro hnd f hf
    rw [List.map_cons, List.nodup_cons] at hnd
    rw [List.filterMap_cons]
    by_cases he : effTag g = effTag f
    · have hfr : f ∉ rest := fun hmem => hnd.1 (he ▸ List.mem_map_of_mem effTag hmem)
      have hfg : f = g := by
        rcases List.mem_cons.mp hf with h | h
        · exact h
        · exact absurd h hfr
      subst hfg
      cases hc : c3EmitVal f with
      | none =>
        simp only [Option.map_none']
        exact lookup_absent (effTag f) rest (fun h => hnd.1 h)
      | some b =>
        simp only [Option.map_some']
        have hbeq : (effTag f == effTag f) = true := by simp
        simp only [List.lookup, hbeq]
    · have hfr : f ∈ rest := by
        rcases List.mem_cons.mp hf with h | h
        · exact absurd (congrArg effTag h.symm) he
        · exact h
      cases hc : c3EmitVal g with
      | none =>
        simp only [Option.map_none']
        exact ih hnd.2 f hfr
      | some b =>
        simp only [Option.map_some']
        have hbeq : (effTag f == effTag g) = false := by
          simp [beq_iff_eq]
          exact fun h => he h.symm
        simp only [List.lookup, hbeq]
        exact ih hnd.2 f hfr

theorem length_zero_eq_empty {s : String} (h : s.length = 0) : s = "" := by
  have hd : s.data = [] := List.length_eq_zero.mp h
  rw [← string_eta s, hd]

theorem int64_length_pos (i : Int) : 0 < (Int64ToString i).length :=
  List.length_pos.mpr (int64_data_ne_nil i)

/-- Under the round-trip hypotheses the marshaler's per-field buffer is
exactly the escaped canonical rendering. -/
theorem produce_eq (f : StructField) (h : fieldRT f) : jsonProduceBuf f = c3EmitVal f := by
  obtain ⟨htrim, heff, hq, hb, hgk, hout, hsb, hsz, hzb, hlit, hvok⟩ := h
  unfold boolLitOK at hlit
  unfold valueOK at hvok
  unfold jsonProduceBuf jsonRender ReflectValueToString c3EmitVal
  rw [hsb, hsz, hzb, hout]
  cases hv : f.value with
  | vStr s =>
    rw [hv] at hvok
    dsimp only [] at hvok
    dsimp only []
    simp only [Bool.false_eq_true, false_and, if_false]
    rw [if_neg (show ¬((none : Option String).isSome = true ∨ False) from by simp)]
    rw [if_neg (show ¬((Value.vStr s).isIntKind = true ∧ (Value.vStr s).intVal = 0 ∧
      lowerStr s = "unknown") from by rintro ⟨h1, -⟩; exact absurd h1 (by simp [Value.isIntKind]))]
    dsimp only []
    rw [if_neg (by rintro ⟨-, -, h3⟩; exact absurd h3 (by decide))]
    rw [if_neg (by rintro ⟨-, -, h3⟩; exact absurd h3 (by decide))]
    rw [if_neg (by rintro ⟨h1, h2⟩; exact hvok.2 h1 (length_zero_eq_empty h2))]
    rfl
  | vBool b =>
    rw [hv] at hlit
    dsimp only [] at hlit
    dsimp only []
    simp only [Bool.false_eq_true, false_and, if_false]
    cases b with
    | true =>
      simp only [if_true]
      rcases hlit with ⟨hb1, hb2⟩ | ⟨hb1, hb2, hne, hnb1, hnb2⟩
      · rw [if_neg (show ¬(0 < LenTrim f.boolTrue) from by rw [hb1]; decide)]
        dsimp only []
        rw [if_neg (show ¬((none : Option String).isSome = true ∨ false = true) from by simp)]
        rw [if_neg (show ¬((Value.vBool true).isIntKind = true ∧ (Value.vBool true).intVal = 0 ∧
          lowerStr "true" = "unknown") from by
            rintro ⟨h1, -⟩; exact absurd h1 (by simp [Value.isIntKind]))]
        dsimp only []
        rw [if_neg (by rintro ⟨-, h2, -⟩; exact absurd h2 (by decide))]
        rw [if_neg (by rintro ⟨-, h2, -⟩; exact absurd h2 (by decide))]
        rw [if_neg (by rintro ⟨-, h2⟩; exact absurd h2 (by decide))]
        rw [if_neg (show ¬(0 < LenTrim f.boolTrue) from by rw [hb1]; decide)]
        rfl
      · rw [if_pos hb1]
        dsimp only []
        rw [if_neg (show ¬((none : Option String).isSome = true ∨ false = true) from by simp)]
        rw [if_neg (show ¬((Value.vBool true).isIntKind = true ∧ (Value.vBool true).intVal = 0 ∧
          lowerStr f.boolTrue = "unknown") from by
            rintro ⟨h1, -⟩; exact absurd h1 (by simp [Value.isIntKind]))]
        dsimp only []
        rw [if_neg (by rintro ⟨-, -, h3⟩; exact absurd h3 (by decide))]
        rw [if_neg (by rintro ⟨-, -, h3⟩; exact absurd h3 (by decide))]
        rw [if_neg (by
          rintro ⟨-, h2⟩
          have := lenTrim_le_length f.boolTrue
          omega)]
        rw [if_pos hb1]
        rfl
    | false =>
      simp only [Bool.false_eq_true, if_false]
      rcases hlit with ⟨hb1, hb2⟩ | ⟨hb1, hb2, hne, hnb1, hnb2⟩
      · rw [if_neg (show ¬(0 < LenTrim f.boolFalse) from by rw [hb2]; decide)]
        dsimp only []
        rw [if_neg (show ¬((none : Option String).isSome = true ∨ false = true) from by simp)]
        rw [if_neg (show ¬((Value.vBool false).isIntKind = true ∧ (Value.vBool false).intVal = 0 ∧
          lowerStr "false" = "unknown") from by
            rintro ⟨h1, -⟩; exact absurd h1 (by simp [Value.isIntKind]))]
        dsimp only []
        rw [if_neg (by rintro ⟨-, h2, -⟩; exact absurd h2 (by decide))]
        rw [if_neg (by rintro ⟨-, -, h3⟩; exact absurd h3 (by decide))]
        rw [if_neg (by rintro ⟨-, h2⟩; exact absurd h2 (by decide))]
        rw [if_neg (show ¬(0 < LenTrim f.boolFalse) from by rw [hb2]; decide)]
        rfl
      · rw [if_pos hb2]
        dsimp only []
        rw [if_neg (show ¬((none : Option String).isSome = true ∨ false = true) from by simp)]
        rw [if_neg (show ¬((Value.vBool false).isIntKind = true ∧ (Value.vBool false).intVal = 0 ∧
          lowerStr f.boolFalse = "unknown") from by
            rintro ⟨h1, -⟩; exact absurd h1 (by simp [Value.isIntKind]))]
        dsimp only []
        rw [if_neg (by rintro ⟨-, -, h3⟩; exact absurd h3 (by decide))]
        rw [if_neg (by rintro ⟨-, -, h3⟩; exact absurd h3 (by decide))]
        rw [if_neg (by
          rintro ⟨-, h2⟩
          have := lenTrim_le_length f.boolFalse
          omega)]
        rw [if_pos hb2]
        rfl
  | vInt n =>
    dsimp only []
    simp only [Bool.false_eq_true, false_and, if_false]
    rw [if_neg (show ¬((none : Option String).isSome = true ∨ False) from by simp)]
    rw [if_neg (show ¬((Value.vInt n).isIntKind = true ∧ (Value.vInt n).intVal = 0 ∧
      lowerStr (Int64ToString n) = "unknown") from by
        rintro ⟨-, -, h3⟩; exact lower_int64_ne_unknown n h3)]
    dsimp only []
    rw [if_neg (by rintro ⟨-, -, h3⟩; exact absurd h3 (by decide))]
    rw [if_neg (by rintro ⟨-, -, h3⟩; exact absurd h3 (by decide))]
    rw [if_neg (by
      rintro ⟨-, h2⟩
      have := int64_length_pos n
      omega)]
    rfl
  | vFloat t =>
    rw [hv] at hvok
    dsimp only [] at hvok
    dsimp only []
    simp only [Bool.false_eq_true, false_and, if_false]
    rw [if_neg (show ¬((none : Option String).isSome = true ∨ False) from by simp)]
    rw [if_neg (show ¬((Value.vFloat t).isIntKind = true ∧ (Value.vFloat t).intVal = 0 ∧
      lowerStr t = "unknown") from by
        rintro ⟨h1, -⟩; exact absurd h1 (by simp [Value.isIntKind]))]
    dsimp only []
    rw [if_neg (by rintro ⟨-, -, h3⟩; exact absurd h3 (by decide))]
    rw [if_neg (by rintro ⟨-, -, h3⟩; exact absurd h3 (by decide))]
    rw [if_neg (by
      rintro ⟨-, h2⟩
      rw [length_zero_eq_empty h2] at hvok
      exact absurd hvok (by decide))]
    rfl
  | vTime t =>
    rw [hv] at hvok
    dsimp only [] at hvok
    dsimp only []
    simp only [Bool.false_eq_true, false_and, if_false]
    rw [if_neg (show ¬((none : Option String).isSome = true ∨ False) from by simp)]
    rw [if_neg (show ¬((Value.vTime t).isIntKind = true ∧ (Value.vTime t).intVal = 0 ∧
      lowerStr t = "unknown") from by
        rintro ⟨h1, -⟩; exact absurd h1 (by simp [Value.isIntKind]))]
    dsimp only []
    rw [if_neg (by rintro ⟨-, -, h3⟩; exact absurd h3 (by decide))]
    rw [if_neg (by rintro ⟨-, -, h3⟩; exact absurd h3 (by decide))]
    rw [if_neg (by rintro ⟨h1, h2⟩; exact hvok.2 h1 (length_zero_eq_empty h2))]
    rfl
  | vNullStr w =>
    rw [hv] at hvok
    dsimp only [] at hvok
    cases w with
    | none =>
      dsimp only []
      rw [if_pos (Or.inr rfl)]
      rfl
    | some s =>
      dsimp only [] at hvok
      dsimp only []
      rw [if_neg (show ¬((none : Option String).isSome = true ∨ false = true) from by simp)]
      rw [if_neg (show ¬((Value.vNullStr (some s)).isIntKind = true ∧
        (Value.vNullStr (some s)).intVal = 0 ∧ lowerStr s = "unknown") from by
          rintro ⟨h1, -⟩; exact absurd h1 (by simp [Value.isIntKind]))]
      dsimp only []
      rw [if_neg (by rintro ⟨-, -, h3⟩; exact absurd h3 (by decide))]
      rw [if_neg (by rintro ⟨-, -, h3⟩; exact absurd h3 (by decide))]
      rw [if_neg (by rintro ⟨h1, h2⟩; exact hvok.2 h1 (length_zero_eq_empty h2))]
      rfl
  | vNullInt w =>
    cases w with
    | none =>
      dsimp only []
      rw [if_pos (Or.inr rfl)]
      rfl
    | some n =>
      dsimp only []
      rw [if_neg (show ¬((none : Option String).isSome = true ∨ false = true) from by simp)]
      rw [if_neg (show ¬((Value.vNullInt (some n)).isIntKind = true ∧
        (Value.vNullInt (some n)).intVal = 0 ∧
        lowerStr (Int64ToString n) = "unknown") from by
          rintro ⟨h1, -⟩; exact absurd h1 (by simp [Value.isIntKind]))]
      dsimp only []
      rw [if_neg (by rintro ⟨-, -, h3⟩; exact absurd h3 (by decide))]
      rw [if_neg (by rintro ⟨-, -, h3⟩; exact absurd h3 (by decide))]
      rw [if_neg (by
        rintro ⟨-, h2⟩
        have := int64_length_pos n
        omega)]
      rfl

theorem clearDefault_value_vStr {f : StructField} {s : String}
    (hv : f.value = Value.vStr s) : ∃ s2, (clearDefault f).value = Value.vStr s2 := by
  unfold clearDefault
  rw [hv]
  exact applyFieldDefault_vStr rfl

theorem clearDefault_value_vBool {f : StructField} {b : Bool}
    (hv : f.value = Value.vBool b) : (clearDefault f).value = Value.vBool false := by
  unfold clearDefault applyFieldDefault
  rw [hv]
  simp only [clearValue]
  split
  · rfl
  · rfl

theorem clearDefault_value_vInt {f : StructField} {n : Int}
    (hv : f.value = Value.vInt n) : ∃ n2, (clearDefault f).value = Value.vInt n2 := by
  unfold clearDefault applyFieldDefault
  rw [hv]
  simp only [clearValue]
  repeat' split
  all_goals exact ⟨_, rfl⟩

theorem clearDefault_value_vFloat {f : StructField} {t : String}
    (hv : f.value = Value.vFloat t) : ∃ t2, (clearDefault f).value = Value.vFloat t2 := by
  unfold clearDefault applyFieldDefault
  rw [hv]
  simp only [clearValue]
  repeat' split
  all_goals exact ⟨_, rfl⟩

theorem clearDefault_value_vTime {f : StructField} {t : String}
    (hv : f.value = Value.vTime t) : ∃ t2, (clearDefault f).value = Value.vTime t2 := by
  unfold clearDefault applyFieldDefault
  rw [hv]
  simp only [clearValue]
  repeat' split
  all_goals exact ⟨_, rfl⟩

theorem clearDefault_value_vNullStr {f : StructField} {w : Option String}
    (hv : f.value = Value.vNullStr w) : ∃ w2, (clearDefault f).value = Value.vNullStr w2 := by
  unfold clearDefault applyFieldDefault
  rw [hv]
  simp only [clearValue]
  repeat' split
  all_goals exact ⟨_, rfl⟩

theorem clearDefault_value_vNullInt {f : StructField} {w : Option Int}
    (hv : f.value = Value.vNullInt w) : ∃ w2, (clearDefault f).value = Value.vNullInt w2 := by
  unfold clearDefault applyFieldDefault
  rw [hv]
  simp only [clearValue]
  repeat' split
  all_goals exact ⟨_, rfl⟩

theorem clearDefault_nullStr_none {f : StructField} (hv : f.value = Value.vNullStr none)
    (hd : f.defVal = "") : clearDefault f = f := by
  unfold clearDefault
  rw [hv]
  have he : ({ f with value := Value.vNullStr none } : StructField) = f := by
    rw [← hv]
  rw [show clearValue (Value.vNullStr none) = Value.vNullStr none from rfl, he]
  unfold applyFieldDefault
  rw [if_pos (by rw [hd]; rfl)]

theorem clearDefault_nullInt_none {f : StructField} (hv : f.value = Value.vNullInt none)
    (hd : f.defVal = "") : clearDefault f = f := by
  unfold clearDefault
  rw [hv]
  have he : ({ f with value := Value.vNullInt none } : StructField) = f := by
    rw [← hv]
  rw [show clearValue (Value.vNullInt none) = Value.vNullInt none from rfl, he]
  unfold applyFieldDefault
  rw [if_pos (by rw [hd]; rfl)]

theorem dropWhile_head_false {p : Char → Bool} {d : Char} {frac : List Char} :
    ∀ {l : List Char}, List.dropWhile p l = d :: frac → p d = false := by
  intro l
  induction l with
  | nil => intro h; exact absurd h (by simp)
  | cons a as ih =>
    intro h
    rw [List.dropWhile_cons] at h
    by_cases hp : p a = true
    · rw [if_pos hp] at h
      exact ih h
    · rw [if_neg hp] at h
      cases h
      exact Bool.not_eq_true _ ▸ (by simpa using hp)

theorem validIntPart_mem : ∀ {l : List Char}, validIntPartChars l = true →
    ∀ c ∈ l, isDigitCh c = true := by
  intro l
  match l with
  | [] => intro h; exact absurd h (by decide)
  | [a] =>
    intro h c hc
    rw [List.mem_singleton] at hc
    subst hc
    exact h
  | a :: b :: rest =>
    intro h c hc
    simp only [validIntPartChars, Bool.and_eq_true] at h
    rcases List.mem_cons.mp hc with h1 | h1
    · subst h1; exact h.1.1
    · exact List.all_eq_true.mp h.2 c h1

theorem validFracChars_mem {l : List Char} (h : validFracChars l = true) :
    ∀ c ∈ l, isDigitCh c = true := by
  unfold validFracChars at h
  simp only [Bool.and_eq_true] at h
  exact fun c hc => List.all_eq_true.mp h.1.2 c hc

theorem validFloatBody_mem {l : List Char} (h : validFloatBody l = true) :
    ∀ c ∈ l, isDigitCh c = true ∨ c = '.' := by
  unfold validFloatBody at h
  cases hd : l.dropWhile (fun c => decide (c ≠ '.')) with
  | nil =>
    rw [hd] at h
    exact fun c hc => Or.inl (validIntPart_mem h c hc)
  | cons d frac =>
    rw [hd] at h
    simp only [Bool.and_eq_true] at h
    intro c hc
    rw [← List.takeWhile_append_dropWhile (p := fun c => decide (c ≠ '.')) (l := l)] at hc
    rcases List.mem_append.mp hc with h1 | h1
    · exact Or.inl (validIntPart_mem h.1 c h1)
    · rw [hd] at h1
      rcases List.mem_cons.mp h1 with h2 | h2
      · subst h2
        have := dropWhile_head_false hd
        simp only [decide_eq_false_iff_not, not_not] at this
        exact Or.inr this
      · exact Or.inl (validFracChars_mem h.2 c h2)

theorem validFloatChars_mem : ∀ {l : List Char}, validFloatChars l = true →
    ∀ c ∈ l, isDigitCh c = true ∨ c = '-' ∨ c = '.' := by
  intro l
  match l with
  | [] => intro h; exact absurd h (by decide)
  | a :: rest =>
    intro h c hc
    unfold validFloatChars at h
    dsimp only [] at h
    by_cases ha : a = '-'
    · rw [if_pos ha] at h
      simp only [Bool.and_eq_true] at h
      rcases List.mem_cons.mp hc with h1 | h1
      · subst h1; exact Or.inr (Or.inl ha)
      · rcases validFloatBody_mem h.1 c h1 with h2 | h2
        · exact Or.inl h2
        · exact Or.inr (Or.inr h2)
    · rw [if_neg ha] at h
      rcases validFloatBody_mem h c hc with h2 | h2
      · exact Or.inl h2
      · exact Or.inr (Or.inr h2)

theorem float_no_bslash {t : String} (h : validFloatChars t.data = true) :
    bslash ∉ t.data := by
  intro hm
  rcases validFloatChars_mem h bslash hm with h1 | h1 | h1
  · exact absurd h1 (by decide)
  · exact absurd h1 (by decide)
  · exact absurd h1 (by decide)

theorem float_no_dquote {t : String} (h : validFloatChars t.data = true) :
    dquote ∉ t.data := by
  intro hm
  rcases validFloatChars_mem h dquote hm with h1 | h1 | h1
  · exact absurd h1 (by decide)
  · exact absurd h1 (by decide)
  · exact absurd h1 (by decide)

/-- Under the round-trip hypotheses, applying the decoded map back to the
cleared-and-defaulted field restores the original field. -/
theorem c3_field_apply (f : StructField) (h : fieldRT f) (m : List (String × String))
    (hlook : m.lookup (effTag f) = c3EmitVal f) :
    jsonFieldApply false m (clearDefault f) = Except.ok f := by
  obtain ⟨htrim, heff, hq, hb, hgk, hout, hsb, hsz, hzb, hlit, hvok⟩ := h
  unfold boolLitOK at hlit
  unfold valueOK at hvok
  have htv : ¬(Trim f.tagVal = "-") := by
    rw [htrim]
    intro he
    apply heff
    unfold effTag
    rw [he]
    rw [if_neg (by decide)]
  obtain ⟨cv, hcd⟩ := clearDefault_shape f
  rw [hcd]
  unfold jsonFieldApply
  dsimp only []
  rw [if_neg htv]
  rw [if_neg (show ¬((false : Bool) = true ∧ Trim f.exTag = "-") from by
    rintro ⟨h1, -⟩; exact absurd h1 (by decide))]
  rw [show (if LenTrim (Trim f.tagVal) = 0 then f.name else Trim f.tagVal) = effTag f from by
    rw [htrim]; rfl]
  rw [hlook]
  cases hv : f.value with
  | vStr s =>
    rw [hv] at hvok hlit
    dsimp only [] at hvok hlit
    have hemit : c3EmitVal f = some ⟨escQuotes s.data⟩ := by
      unfold c3EmitVal
      rw [hv]
    rw [hemit]
    dsimp only []
    rw [fromEsc hvok.1]
    rw [normalize_id (f := { f with value := cv }) hlit.1 hlit.2 hout s]
    obtain ⟨s2, hs2⟩ := clearDefault_value_vStr hv
    rw [hcd] at hs2
    have hcv : cv = Value.vStr s2 := hs2
    subst hcv
    unfold ReflectStringToField
    dsimp only []
    rw [← hv]
  | vInt n =>
    rw [hv] at hlit
    dsimp only [] at hlit
    have hemit : c3EmitVal f = some ⟨escQuotes (Int64ToString n).data⟩ := by
      unfold c3EmitVal
      rw [hv]
    rw [hemit]
    dsimp only []
    rw [fromEsc (int64_no_bslash n)]
    rw [normalize_id (f := { f with value := cv }) hlit.1 hlit.2 hout (Int64ToString n)]
    obtain ⟨n2, hn2⟩ := clearDefault_value_vInt hv
    rw [hcd] at hn2
    have hcv : cv = Value.vInt n2 := hn2
    subst hcv
    unfold ReflectStringToField
    dsimp only []
    rw [parseInt64_int64ToString n]
    dsimp only []
    rw [← hv]
  | vFloat t =>
    rw [hv] at hvok hlit
    dsimp only [] at hvok hlit
    have hemit : c3EmitVal f = some ⟨escQuotes t.data⟩ := by
      unfold c3EmitVal
      rw [hv]
    rw [hemit]
    dsimp only []
    rw [fromEsc (float_no_bslash hvok)]
    rw [normalize_id (f := { f with value := cv }) hlit.1 hlit.2 hout t]
    obtain ⟨t2, ht2⟩ := clearDefault_value_vFloat hv
    rw [hcd] at ht2
    have hcv : cv = Value.vFloat t2 := ht2
    subst hcv
    unfold ReflectStringToField
    dsimp only []
    rw [if_pos (show ValidFloatText t = true from hvok)]
    rw [← hv]
  | vTime t =>
    rw [hv] at hvok hlit
    dsimp only [] at hvok hlit
    have hemit : c3EmitVal f = some ⟨escQuotes t.data⟩ := by
      unfold c3EmitVal
      rw [hv]
    rw [hemit]
    dsimp only []
    rw [fromEsc hvok.1]
    rw [normalize_id (f := { f with value := cv }) hlit.1 hlit.2 hout t]
    obtain ⟨t2, ht2⟩ := clearDefault_value_vTime hv
    rw [hcd] at ht2
    have hcv : cv = Value.vTime t2 := ht2
    subst hcv
    unfold ReflectStringToField
    dsimp only []
    rw [← hv]
  | vNullStr w =>
    rw [hv] at hvok hlit
    dsimp only [] at hvok hlit
    cases w with
    | none =>
      have hemit : c3EmitVal f = none := by
        unfold c3EmitVal
        rw [hv]
        rfl
      rw [hemit]
      dsimp only []
      rw [← hcd, clearDefault_nullStr_none hv hvok]
    | some s =>
      dsimp only [] at hvok
      have hemit : c3EmitVal f = some ⟨escQuotes s.data⟩ := by
        unfold c3EmitVal
        rw [hv]
        rfl
      rw [hemit]
      dsimp only []
      rw [fromEsc hvok.1]
      rw [normalize_id (f := { f with value := cv }) hlit.1 hlit.2 hout s]
      obtain ⟨w2, hw2⟩ := clearDefault_value_vNullStr hv
      rw [hcd] at hw2
      have hcv : cv = Value.vNullStr w2 := hw2
      subst hcv
      unfold ReflectStringToField
      dsimp only []
      rw [← hv]
  | vNullInt w =>
    rw [hv] at hvok hlit
    dsimp only [] at hvok hlit
    cases w with
    | none =>
      have hemit : c3EmitVal f = none := by
        unfold c3EmitVal
        rw [hv]
        rfl
      rw [hemit]
      dsimp only []
      rw [← hcd, clearDefault_nullInt_none hv hvok]
    | some n =>
      have hemit : c3EmitVal f = some ⟨escQuotes (Int64ToString n).data⟩ := by
        unfold c3EmitVal
        rw [hv]
        rfl
      rw [hemit]
      dsimp only []
      rw [fromEsc (int64_no_bslash n)]
      rw [normalize_id (f := { f with value := cv }) hlit.1 hlit.2 hout (Int64ToString n)]
      obtain ⟨w2, hw2⟩ := clearDefault_value_vNullInt hv
      rw [hcd] at hw2
      have hcv : cv = Value.vNullInt w2 := hw2
      subst hcv
      unfold ReflectStringToField
      dsimp only []
      rw [parseInt64_int64ToString n]
      dsimp only []
      rw [← hv]
  | vBool b =>
    rw [hv] at hlit
    dsimp only [] at hlit
    have hval : (clearDefault f).value = Value.vBool false := clearDefault_value_vBool hv
    rw [hcd] at hval
    have hcv : cv = Value.vBool false := hval
    subst hcv
    cases b with
    | true =>
      rcases hlit with ⟨hb1, hb2⟩ | ⟨hb1, hb2, hne, hnb1, hnb2⟩
      · have hemit : c3EmitVal f = some "true" := by
          unfold c3EmitVal
          rw [hv]
          dsimp only []
          rw [if_neg (show ¬(0 < LenTrim f.boolTrue) from by rw [hb1]; decide)]
          rw [if_pos rfl]
          rfl
        rw [hemit]
        dsimp only []
        rw [show JsonFromEscaped "true" = "true" from rfl]
        rw [normalize_id (f := { f with value := Value.vBool false }) hb1 hb2 hout "true"]
        unfold ReflectStringToField
        dsimp only []
        rw [if_pos (show lowerStr "true" = "true" from rfl)]
        rw [← hv]
      · have hemit : c3EmitVal f = some ⟨escQuotes f.boolTrue.data⟩ := by
          unfold c3EmitVal
          rw [hv]
          dsimp only []
          rw [if_pos hb1]
          rw [if_pos rfl]
        rw [hemit]
        dsimp only []
        rw [fromEsc hnb1]
        unfold jsonNormalizeBool
        dsimp only []
        rw [if_neg (by rintro ⟨-, h2, -⟩; rw [hout] at h2; exact absurd h2 (by decide))]
        rw [if_pos ⟨hb1, by
          have := lenTrim_le_length f.boolTrue
          omega, rfl⟩]
        unfold ReflectStringToField
        dsimp only []
        rw [if_pos (show lowerStr "true" = "true" from rfl)]
        rw [← hv]
    | false =>
      rcases hlit with ⟨hb1, hb2⟩ | ⟨hb1, hb2, hne, hnb1, hnb2⟩
      · have hemit : c3EmitVal f = some "false" := by
          unfold c3EmitVal
          rw [hv]
          dsimp only []
          rw [if_neg (show ¬(0 < LenTrim f.boolFalse) from by rw [hb2]; decide)]
          rw [if_neg (show ¬(false = true) from by decide)]
          rfl
        rw [hemit]
        dsimp only []
        rw [show JsonFromEscaped "false" = "false" from rfl]
        rw [normalize_id (f := { f with value := Value.vBool false }) hb1 hb2 hout "false"]
        unfold ReflectStringToField
        dsimp only []
        rw [if_neg (show ¬(lowerStr "false" = "true") from by decide)]
        rw [if_pos (show lowerStr "false" = "false" from rfl)]
        rw [← hv]
      · have hemit : c3EmitVal f = some ⟨escQuotes f.boolFalse.data⟩ := by
          unfold c3EmitVal
          rw [hv]
          dsimp only []
          rw [if_pos hb2]
          rw [if_neg (show ¬(false = true) from by decide)]
        rw [hemit]
        dsimp only []
        rw [fromEsc hnb2]
        unfold jsonNormalizeBool
        dsimp only []
        rw [if_neg (by rintro ⟨-, h2, -⟩; rw [hout] at h2; exact absurd h2 (by decide))]
        rw [if_neg (by rintro ⟨-, -, h3⟩; exact hne h3)]
        rw [if_pos ⟨hb2, by
          have := lenTrim_le_length f.boolFalse
          omega, rfl⟩]
        unfold ReflectStringToField
        dsimp only []
        rw [if_neg (show ¬(lowerStr "false" = "true") from by decide)]
        rw [if_pos (show lowerStr "false" = "false" from rfl)]
        rw [← hv]

theorem c3_pairs (rcd : Record) (hall : ∀ f ∈ rcd, fieldRT f) :
    jsonPairs rcd false =
      rcd.filterMap (fun f => (c3EmitVal f).map (fun b => (effTag f, b))) := by
  unfold jsonPairs
  rw [jsonWalk_groups_none rcd [] []
    (fun f hf => ⟨(hall f hf).2.2.2.2.1, eligible_of (hall f hf).2.1⟩)]
  dsimp only []
  rw [List.nil_append]
  exact List.filterMap_congr (fun f hf => by rw [produce_eq f (hall f hf)])

theorem c3_pairs_wf (rcd : Record) (hall : ∀ f ∈ rcd, fieldRT f) :
    ∀ p ∈ rcd.filterMap (fun f => (c3EmitVal f).map (fun b => (effTag f, b))),
      dquote ∉ p.1.data ∧ bslash ∉ p.1.data ∧ ScanSafe p.2.data := by
  intro p hp
  obtain ⟨f, hf, hfp⟩ := List.mem_filterMap.mp hp
  obtain ⟨b, hb1, rfl⟩ := Option.map_eq_some'.mp hfp
  obtain ⟨htrim, heff, hq, hbs, hgk, hout, hsb, hsz, hzb, hlit, hvok⟩ := hall f hf
  refine ⟨hq, hbs, ?_⟩
  unfold c3EmitVal at hb1
  unfold boolLitOK at hlit
  unfold valueOK at hvok
  cases hv : f.value with
  | vStr s =>
    rw [hv] at hb1 hvok
    dsimp only [] at hb1 hvok
    cases hb1
    exact scanSafe_escQuotes hvok.1
  | vBool bb =>
    rw [hv] at hb1 hlit
    dsimp only [] at hb1 hlit
    cases hb1
    apply scanSafe_escQuotes
    rcases hlit with ⟨hb1', hb2'⟩ | ⟨hb1', hb2', hne, hnb1, hnb2⟩
    · cases bb
      · rw [if_neg (show ¬(false = true) from by decide)]
        rw [if_neg (show ¬(0 < LenTrim f.boolFalse) from by rw [hb2']; decide)]
        decide
      · rw [if_pos rfl]
        rw [if_neg (show ¬(0 < LenTrim f.boolTrue) from by rw [hb1']; decide)]
        decide
    · cases bb
      · rw [if_neg (show ¬(false = true) from by decide), if_pos hb2']
        exact hnb2
      · rw [if_pos rfl, if_pos hb1']
        exact hnb1
  | vInt n =>
    rw [hv] at hb1
    dsimp only [] at hb1
    cases hb1
    exact scanSafe_escQuotes (int64_no_bslash n)
  | vFloat t =>
    rw [hv] at hb1 hvok
    dsimp only [] at hb1 hvok
    cases hb1
    exact scanSafe_escQuotes (float_no_bslash hvok)
  | vTime t =>
    rw [hv] at hb1 hvok
    dsimp only [] at hb1 hvok
    cases hb1
    exact scanSafe_escQuotes hvok.1
  | vNullStr w =>
    rw [hv] at hb1 hvok
    dsimp only [] at hb1 hvok
    cases w with
    | none => exact absurd hb1 (by simp)
    | some s =>
      dsimp only [] at hb1 hvok
      cases hb1
      exact scanSafe_escQuotes hvok.1
  | vNullInt w =>
    rw [hv] at hb1
    dsimp only [] at hb1
    cases w with
    | none => exact absurd hb1 (by simp)
    | some n =>
      rw [Option.map_some'] at hb1
      cases hb1
      exact scanSafe_escQuotes (int64_no_bslash n)

theorem c3_marshal_out (rcd : Record)
    (hsucc : (MarshalStructToJson (some rcd) true false).2 = none) :
    jsonPairs rcd false ≠ [] ∧
    (MarshalStructToJson (some rcd) true false).1 =
      ⟨lbrace :: (printPairsSep (jsonPairs rcd false) ++ [rbrace])⟩ := by
  unfold MarshalStructToJson at hsucc ⊢
  dsimp only [] at hsucc ⊢
  rw [if_neg (show ¬((true : Bool) = false) from by decide)] at hsucc ⊢
  by_cases hps : (jsonPairs rcd false).isEmpty
  · rw [if_pos hps] at hsucc
    exact absurd hsucc (by simp)
  · rw [if_neg hps] at hsucc ⊢
    refine ⟨?_, rfl⟩
    intro hcon
    exact hps (by rw [hcon]; rfl)

theorem printPairsSep_length (ps : List (String × String)) :
    ps.length ≤ (printPairsSep ps ++ [rbrace]).length := by
  induction ps with
  | nil => simp
  | cons p tail ih =>
    cases tail with
    | nil => simp [printPairsSep, pairChunk]
    | cons q rest =>
      show (p :: q :: rest).length ≤
        ((pairChunk p ++ ',' :: ' ' :: printPairsSep (q :: rest)) ++ [rbrace]).length
      simp only [List.length_cons, List.append_assoc, List.length_append] at ih ⊢
      omega

theorem printPairsSep_ne_nil {ps : List (String × String)} (h : ps ≠ []) :
    printPairsSep ps ≠ [] := by
  cases ps with
  | nil => exact absurd rfl h
  | cons p tail =>
    cases tail with
    | nil =>
      show pairChunk p ≠ []
      simp [pairChunk]
    | cons q rest =>
      show pairChunk p ++ _ ≠ []
      simp [pairChunk]

theorem c3_decode (ps : List (String × String)) (hne : ps ≠ [])
    (hwf : ∀ p ∈ ps, dquote ∉ p.1.data ∧ bslash ∉ p.1.data ∧ ScanSafe p.2.data) :
    jsonDecodeObject ⟨lbrace :: (printPairsSep ps ++ [rbrace])⟩ = some ps := by
  unfold jsonDecodeObject
  dsimp only []
  rw [if_pos rfl]
  rw [if_neg (show ¬(printPairsSep ps ++ [rbrace] = [rbrace]) from by
    intro hcon
    have hl := congrArg List.length hcon
    simp only [List.length_append, List.length_cons, List.length_nil] at hl
    exact printPairsSep_ne_nil hne (List.length_eq_zero.mp (by omega)))]
  exact parsePairs_print ps _ hne (printPairsSep_length ps) hwf

theorem lenTrim_braced (l : List Char) :
    0 < LenTrim ⟨lbrace :: (l ++ [rbrace])⟩ := by
  unfold LenTrim Trim trimChars
  show 0 < (String.mk ((List.dropWhile isWhiteCh
    (List.dropWhile isWhiteCh (lbrace :: (l ++ [rbrace]))).reverse).reverse)).length
  have h1 : List.dropWhile isWhiteCh (lbrace :: (l ++ [rbrace])) =
      lbrace :: (l ++ [rbrace]) := by
    rw [List.dropWhile_cons, if_neg (by decide)]
  rw [h1]
  have h2 : (lbrace :: (l ++ [rbrace])).reverse = rbrace :: (l.reverse ++ [lbrace]) := by
    simp
  rw [h2]
  have h3 : List.dropWhile isWhiteCh (rbrace :: (l.reverse ++ [lbrace])) =
      rbrace :: (l.reverse ++ [lbrace]) := by
    rw [List.dropWhile_cons, if_neg (by decide)]
  rw [h3]
  show 0 < (rbrace :: (l.reverse ++ [lbrace])).reverse.length
  simp

theorem jsonUnmarshalGo_ok (m : List (String × String)) :
    ∀ (l : List StructField) (acc : List StructField),
      (∀ f ∈ l, jsonFieldApply false m (clearDefault f) = Except.ok f) →
      jsonUnmarshalGo false m acc (l.map clearDefault) = (acc.reverse ++ l, none) := by
  intro l
  induction l with
  | nil =>
    intro acc _
    show jsonUnmarshalGo false m acc [] = _
    simp [jsonUnmarshalGo]
  | cons f rest ih =>
    intro acc hok
    show jsonUnmarshalGo false m acc (clearDefault f :: rest.map clearDefault) = _
    simp only [jsonUnmarshalGo]
    rw [hok f (List.mem_cons_self _ _)]
    dsimp only []
    rw [ih (f :: acc) (fun g hg => hok g (List.mem_cons_of_mem _ hg))]
    simp

/-- **C3 (amended).** The JSON round trip restores the record only under
per-field conditions: distinct effective keys, no unique-group tags, no
output prefix, no skip flags, trim-stable backslash-free keys, value text
free of backslashes, defaults that cannot fire on the marshaled rendering,
and bool literals either both blank or both non-blank and distinct.  Under
these hypotheses a successful `MarshalStructToJson` followed by
`UnmarshalJsonToStruct` yields the original record with no error; the
counterexample shows the claim fails without them. -/
theorem c3_json_roundtrip_amended (rcd : Record)
    (hall : ∀ f ∈ rcd, fieldRT f)
    (hnd : (rcd.map effTag).Nodup)
    (hsucc : (MarshalStructToJson (some rcd) true false).2 = none) :
    UnmarshalJsonToStruct (some rcd) (MarshalStructToJson (some rcd) true false).1 true false =
      (some rcd, none) := by
  obtain ⟨hne, hout⟩ := c3_marshal_out rcd hsucc
  rw [hout]
  have hpairs := c3_pairs rcd hall
  have hwf : ∀ p ∈ jsonPairs rcd false,
      dquote ∉ p.1.data ∧ bslash ∉ p.1.data ∧ ScanSafe p.2.data := by
    rw [hpairs]
    exact c3_pairs_wf rcd hall
  unfold UnmarshalJsonToStruct
  dsimp only []
  rw [if_neg (show ¬(LenTrim (⟨lbrace :: (printPairsSep (jsonPairs rcd false) ++ [rbrace])⟩ : String) = 0) from by
    have := lenTrim_braced (printPairsSep (jsonPairs rcd false))
    omega)]
  rw [if_neg (show ¬((true : Bool) = false) from by decide)]
  rw [c3_decode (jsonPairs rcd false) hne hwf]
  dsimp only []
  rw [if_neg (show ¬((jsonPairs rcd false).isEmpty = true) from by
    simpa [List.isEmpty_iff] using hne)]
  have hr1 : applyDefaults (StructClearFields rcd) = rcd.map clearDefault := by
    unfold applyDefaults StructClearFields clearDefault
    rw [List.map_map]
    rfl
  rw [hr1]
  rw [jsonUnmarshalGo_ok (jsonPairs rcd false) rcd []
    (fun f hf => c3_field_apply f (hall f hf) (jsonPairs rcd false) (by
      rw [hpairs]
      exact lookup_emit rcd hnd f hf))]
  simp

/-- **C3 witness.** A concrete string/bool record on which the amended
round-trip theorem applies: marshaling succeeds and unmarshaling the output
restores the record exactly. -/
theorem c3_json_roundtrip_amended_witness :
    (MarshalStructToJson (some [c3w1, c3w2]) true false).2 = none ∧
    UnmarshalJsonToStruct (some [c3w1, c3w2])
        (MarshalStructToJson (some [c3w1, c3w2]) true false).1 true false =
      (some [c3w1, c3w2], none) :=
  ⟨rfl, c3_json_roundtrip_amended [c3w1, c3w2]
    (by
      intro f hf
      rcases List.mem_cons.mp hf with h | h
      · subst h
        exact ⟨by decide, by decide, by decide, by decide, rfl, rfl, rfl, rfl, rfl,
          ⟨rfl, rfl⟩, ⟨by decide, fun hl => absurd hl (by decide)⟩⟩
      · rcases List.mem_cons.mp h with h2 | h2
        · subst h2
          exact ⟨by decide, by decide, by decide, by decide, rfl, rfl, rfl, rfl, rfl,
            Or.inr ⟨by decide, by decide, by decide, by decide, by decide⟩, trivial⟩
        · exact absurd h2 (List.not_mem_nil f))
    (by decide) rfl⟩

end AldeloCommon
